import Mathlib

/-! govalite: snapshot agent for a replicated vault cluster

A shallow embedding of the scheduling and orchestration code of the agent
(`cmd/main.go`) and of the cluster client (`pkg/vault/client.go`), followed by
theorems about it.

Conventions of the embedding

* A Go `error` is an `Option String`: `none` is `nil`, `some msg` is an error
  whose `Error()` text is `msg`.
* Everything outside the process (the cluster API, the storage backends, the
  file system, the clock) is an arbitrary deterministic function of an abstract
  external state `σ`; quantifying over `σ` and over these functions covers every
  pattern of outcomes of the external calls.
* Every embedded function returns, next to its Go results and the new state,
  the list of external calls it made, in order (`List Event`).
* Logging (`slog`) and the `context.Context` argument, which is only handed on
  to the external calls, are not modelled.
-/

namespace Govalite

/-! ## Time (`time.Time`, `time.Duration`) -/

/-! A `time.Duration` is a count of nanoseconds, an `Int` here; Go stores it in
an `int64`, whose range is `Duration.InRange`. -/

/-- The largest `time.Duration`, `1<<63 - 1` nanoseconds (about 292 years). -/
def maxDuration : Int := 2 ^ 63 - 1

/-- The smallest `time.Duration`, `-1 << 63` nanoseconds. -/
def minDuration : Int := -(2 ^ 63)

/-- The values a `time.Duration` variable can hold. -/
def Duration.InRange (d : Int) : Prop := minDuration ≤ d ∧ d ≤ maxDuration

instance (d : Int) : Decidable (Duration.InRange d) := by
  unfold Duration.InRange; infer_instance

/-- Two's complement wrap-around of an integer into the `int64` range. -/
def wrapInt64 (x : Int) : Int := (x + 2 ^ 63) % 2 ^ 64 - 2 ^ 63

/-- Division of a `Duration` by an integer constant, as in `cfg.SnapshotFreq/2`:
Go integer division truncates toward zero. -/
def Duration.div (d : Int) (k : Int) : Int := Int.tdiv d k

/-- An instant as a `time.Time` denotes it: nanoseconds elapsed since the zero
time (January 1, year 1, 00:00:00 UTC), negative before it. The location and
the monotonic reading play no part in `After`, `IsZero`, `Add` on the times the
agent compares (a listed `LastModified` has no monotonic reading). The bound of
the `int64` second counter (about 292 billion years) is not modelled. -/
structure Time where
  ns : Int
deriving DecidableEq, Repr

/-- The zero value of `time.Time` (`var latestGlobal time.Time`). -/
def Time.zero : Time := ⟨0⟩

/-- `t.IsZero()`: whether `t` is the zero time instant. -/
def Time.IsZero (t : Time) : Bool := decide (t.ns = 0)

/-- `t.After(u)`: whether `t` is strictly later than `u`. -/
def Time.After (t u : Time) : Bool := decide (u.ns < t.ns)

/-- `t.Before(u)`: whether `t` is strictly earlier than `u`. -/
def Time.Before (t u : Time) : Bool := decide (t.ns < u.ns)

/-- `t.Add(d)`. -/
def Time.Add (t : Time) (d : Int) : Time := ⟨t.ns + d⟩

/-- `t.Sub(u)` of the Go standard library: the difference is computed in
`int64` arithmetic, and when it does not fit the result is the largest or the
smallest `Duration` ("If the result exceeds the maximum (or minimum) value that
can be stored in a Duration, the maximum (or minimum) duration will be
returned"). -/
def Time.Sub (t u : Time) : Int :=
  let d := wrapInt64 (t.ns - u.ns)
  if u.Add d = t then d
  else if t.Before u then minDuration
  else maxDuration

/-- `time.Since(t)` for a `t` without monotonic reading is `time.Now().Sub(t)`;
`now` is the clock reading. -/
def Since (now t : Time) : Int := now.Sub t

/-! ## Scheduler: the wait of one iteration (`runDynamicScheduler`) -/

/-- The wait computed by one iteration of `runDynamicScheduler` (main.go lines
90 to 103) from the last snapshot time, the configured frequency and the clock
reading `now := time.Now()`. -/
def waitDuration (lastSnapshotTime : Time) (SnapshotFreq : Int) (now : Time) : Int :=
  let nextSchedule := lastSnapshotTime.Add SnapshotFreq
  if lastSnapshotTime.IsZero then 0
  else if now.After nextSchedule then 0
  else nextSchedule.Sub now

/-! ## Cluster client: error classification (`checkAuthError`) -/

/-- `strings.ToLower(s)`: every rune is mapped to its lower case. `lower` is
`unicode.ToLower`, a table of the Go standard library; on ASCII it is
`Char.toLower`. -/
def ToLower (lower : Char → Char) (s : String) : String := ⟨s.data.map lower⟩

/-- `strings.Contains(s, substr)`: whether `substr` occurs within `s`. -/
def Contains (s substr : String) : Bool :=
  s.data.tails.any (fun t => substr.data.isPrefixOf t)

/-- `checkAuthError(err)` of client.go. -/
def checkAuthError (lower : Char → Char) (err : Option String) : Bool :=
  match err with
  | none => false
  | some text =>
    let msg := ToLower lower text
    Contains msg "403" ||
      Contains msg "permission denied" ||
      Contains msg "invalid token"

/-! ## Data model and the external world -/

/-- `storage.FileInfo`: one stored snapshot as a backend lists it. -/
structure FileInfo where
  Key : String
  LastModified : Time
deriving DecidableEq, Repr

/-- A call the agent makes on the outside world, with the result it got.
Calls on a storage provider carry the identity of the provider. -/
inductive Event where
  /-- The call `c.api.Sys().Leader()`. -/
  | leader (err : Option String)
  /-- The call `c.api.Sys().RaftSnapshotWithContext(ctx, w)`. -/
  | raftSnapshot (err : Option String)
  /-- The call `c.api.Logical().Write("auth/approle/login", data)`. -/
  | login (err : Option String)
  /-- The call `c.api.SetToken(tok)`. -/
  | setToken (tok : String)
  /-- The call `s.List(ctx)` on the provider at `addr`, with the records and the error it
  returned. -/
  | list (addr : Nat) (files : List FileInfo) (err : Option String)
  /-- The call `s.Save(ctx, filename, tmpFile)` on the provider at `addr`. -/
  | save (addr : Nat) (filename : String) (err : Option String)
  /-- The call `provider.Delete(ctx, key)` on the provider at `addr`. -/
  | delete (addr : Nat) (key : String) (err : Option String)
  /-- The call `os.CreateTemp`. -/
  | createTemp (err : Option String)
  /-- The call `tmpFile.Seek(0, 0)` in the iteration of the provider at `addr`. -/
  | seek (addr : Nat) (err : Option String)
  /-- The call `tmpFile.Stat()`. -/
  | stat (err : Option String)
  /-- The deferred `tmpFile.Close()`. -/
  | closeTemp
  /-- The deferred `os.Remove(tmpFile.Name())`. -/
  | removeTemp
deriving DecidableEq, Repr

/-- `storage.Provider`: the interface of a storage backend, each method a
function of the external state. `addr` is the identity of the interface value
(the pointer it holds); it only attributes the calls in the event list. -/
structure Provider (σ : Type) where
  addr : Nat
  Name : String
  Save : String → σ → Option String × σ
  List : σ → (List FileInfo × Option String) × σ
  Delete : String → σ → Option String × σ

/-- `api.LeaderResponse`, the field the agent reads. -/
structure LeaderResponse where
  IsSelf : Bool
deriving DecidableEq, Repr

/-- `api.SecretAuth`, the field the agent reads. -/
structure SecretAuth where
  ClientToken : String
deriving DecidableEq, Repr

/-- `api.Secret`, the field the agent reads; `Auth` may be nil. -/
structure Secret where
  Auth : Option SecretAuth
deriving DecidableEq, Repr

/-- What the code calls outside the repository: the cluster API (each call is
issued with the token currently installed in the API client), the temporary
file, the clock, and two functions of the Go standard library. -/
structure Env (σ : Type) where
  /-- The rune table `unicode.ToLower` behind `strings.ToLower`. -/
  unicodeToLower : Char → Char
  /-- The library sort `sort.Slice(files, less)`, as a function from the slice before to the
  slice after. -/
  SortSlice : (FileInfo → FileInfo → Bool) → List FileInfo → List FileInfo
  /-- The call `c.api.Sys().Leader()` under the installed token. -/
  Leader : String → σ → (LeaderResponse × Option String) × σ
  /-- The call `c.api.Sys().RaftSnapshotWithContext(ctx, w)` under the installed token. -/
  RaftSnapshot : String → σ → Option String × σ
  /-- The login `c.api.Logical().Write("auth/approle/login", data)` under the installed token,
  with the role id and the secret id. -/
  Write : String → String → String → σ → (Option Secret × Option String) × σ
  /-- The clock `time.Now()`. -/
  Now : σ → Time × σ
  /-- The text `time.Now().In(loc).Format("02-01-2006-15-04-05")`. -/
  FormatNow : σ → String × σ
  /-- The call `os.CreateTemp("", "vault-snapshot-*.snap")`. -/
  CreateTemp : σ → Option String × σ
  /-- The call `tmpFile.Seek(0, 0)`. -/
  Seek : σ → Option String × σ
  /-- The call `tmpFile.Stat()`. -/
  Stat : σ → Option String × σ
  /-- The call `tmpFile.Close()`. -/
  Close : σ → σ
  /-- The call `os.Remove(tmpFile.Name())`. -/
  Remove : σ → σ

/-- `vault.Client`: the configured credentials, and the token installed in
the API client `c.api` (what `c.api.SetToken` sets). -/
structure Client where
  apiToken : String
  roleID : String
  secretID : String
  token : String
deriving DecidableEq, Repr

/-- `config.Config`, the fields the orchestration reads. -/
structure Config where
  SnapshotFreq : Int
  SnapshotPrefix : String
  SnapshotRetain : Int
deriving DecidableEq, Repr

/-- How a function call ends: it returns, or the Go runtime panics. -/
inductive Completion where
  | done
  | panicked
deriving DecidableEq, Repr

/-! ## Cluster client (`pkg/vault/client.go`) -/

/-- `(c *Client) Authenticate()`: the error, the client after the call, the
external state after it, and the calls made. -/
def Authenticate {σ : Type} (env : Env σ) (c : Client) (s : σ) :
    Option String × Client × σ × List Event :=
  if c.token ≠ "" then
    (none, { c with apiToken := c.token }, s, [Event.setToken c.token])
  else if c.roleID ≠ "" ∧ c.secretID ≠ "" then
    match env.Write c.apiToken c.roleID c.secretID s with
    | ((secret, err), s1) =>
      match err with
      | some e => (some ("approle login failed: " ++ e), c, s1, [Event.login err])
      | none =>
        match secret with
        | none => (some "approle login returned no auth data", c, s1, [Event.login err])
        | some sec =>
          match sec.Auth with
          | none => (some "approle login returned no auth data", c, s1, [Event.login err])
          | some auth =>
            (none, { c with apiToken := auth.ClientToken }, s1,
              [Event.login err, Event.setToken auth.ClientToken])
  else
    (some "no valid authentication method configured", c, s, [])

/-- The end of `IsLeader` (client.go lines 99 to 102): the error of the last
`Leader` call is wrapped and returned, or else the answer is `info.IsSelf`. -/
def leaderStatus (info : LeaderResponse) (err : Option String) : Bool × Option String :=
  match err with
  | some e => (false, some ("failed to get leader status: " ++ e))
  | none => (info.IsSelf, none)

/-- `(c *Client) IsLeader()`: the pair `(bool, error)`, the client and the
external state after the call, and the calls made. -/
def IsLeader {σ : Type} (env : Env σ) (c : Client) (s : σ) :
    (Bool × Option String) × Client × σ × List Event :=
  match env.Leader c.apiToken s with
  | ((info, err), s1) =>
    if checkAuthError env.unicodeToLower err then
      match Authenticate env c s1 with
      | (loginErr, c2, s2, evA) =>
        match loginErr with
        | none =>
          match env.Leader c2.apiToken s2 with
          | ((info2, err2), s3) =>
            (leaderStatus info2 err2, c2, s3, [Event.leader err] ++ evA ++ [Event.leader err2])
        | some _ => (leaderStatus info err, c2, s2, [Event.leader err] ++ evA)
    else
      (leaderStatus info err, c, s1, [Event.leader err])

/-- `(c *Client) TakeSnapshot(ctx, w)`: the error, the client and the
external state after the call, and the calls made. -/
def TakeSnapshot {σ : Type} (env : Env σ) (c : Client) (s : σ) :
    Option String × Client × σ × List Event :=
  match env.RaftSnapshot c.apiToken s with
  | (err, s1) =>
    match err with
    | none => (none, c, s1, [Event.raftSnapshot err])
    | some e =>
      if !checkAuthError env.unicodeToLower err then
        (some e, c, s1, [Event.raftSnapshot err])
      else
        match Authenticate env c s1 with
        | (loginErr, c2, s2, evA) =>
          match loginErr with
          | some le =>
            (some ("re-auth failed: " ++ le ++ " (original error: " ++ e ++ ")"), c2, s2,
              [Event.raftSnapshot err] ++ evA)
          | none =>
            match env.RaftSnapshot c2.apiToken s2 with
            | (err2, s3) =>
              (err2, c2, s3, [Event.raftSnapshot err] ++ evA ++ [Event.raftSnapshot err2])

/-! ## Orchestration (`cmd/main.go`) -/

/-- The inner loop of `getLastSnapshotFromAllStorages` over the records of one
listing: `latestGlobal` moves to every record that is after it. -/
def scanFiles (files : List FileInfo) (latestGlobal : Time) : Time :=
  match files with
  | [] => latestGlobal
  | f :: rest =>
    if f.LastModified.After latestGlobal then scanFiles rest f.LastModified
    else scanFiles rest latestGlobal

/-- The outer loop of `getLastSnapshotFromAllStorages`, from the current value
of `latestGlobal`: a provider whose `List` fails is skipped. -/
def getLastLoop {σ : Type} (storages : List (Provider σ)) (latestGlobal : Time) (s : σ) :
    Time × σ × List Event :=
  match storages with
  | [] => (latestGlobal, s, [])
  | p :: rest =>
    match p.List s with
    | ((files, err), s1) =>
      match err with
      | some _ =>
        match getLastLoop rest latestGlobal s1 with
        | (t, s2, evs) => (t, s2, Event.list p.addr files err :: evs)
      | none =>
        match getLastLoop rest (scanFiles files latestGlobal) s1 with
        | (t, s2, evs) => (t, s2, Event.list p.addr files err :: evs)

/-- `getLastSnapshotFromAllStorages(ctx, storages)`: `latestGlobal` starts as
the zero time. -/
def getLastSnapshotFromAllStorages {σ : Type} (storages : List (Provider σ)) (s : σ) :
    Time × σ × List Event :=
  getLastLoop storages Time.zero s

/-- The comparison handed to `sort.Slice` in `enforceRetention`:
`files[i].LastModified.After(files[j].LastModified)`. -/
def retentionLess (a b : FileInfo) : Bool := a.LastModified.After b.LastModified

/-- The deletion loop of `enforceRetention` over `toDelete`: a failed `Delete`
is logged and the loop goes on. -/
def deleteLoop {σ : Type} (provider : Provider σ) (toDelete : List FileInfo) (s : σ) :
    σ × List Event :=
  match toDelete with
  | [] => (s, [])
  | f :: rest =>
    match provider.Delete f.Key s with
    | (err, s1) =>
      match deleteLoop provider rest s1 with
      | (s2, evs) => (s2, Event.delete provider.addr f.Key err :: evs)

/-- `enforceRetention(ctx, provider, maxRetain)`: how the call ends, the error
it returns, the external state after it and the calls made. The slice
expression `files[maxRetain:]` panics for a negative `maxRetain`. -/
def enforceRetention {σ : Type} (env : Env σ) (provider : Provider σ) (maxRetain : Int) (s : σ) :
    Completion × Option String × σ × List Event :=
  match provider.List s with
  | ((files, err), s1) =>
    match err with
    | some e => (Completion.done, some e, s1, [Event.list provider.addr files err])
    | none =>
      if (files.length : Int) ≤ maxRetain then
        (Completion.done, none, s1, [Event.list provider.addr files err])
      else
        let sorted := env.SortSlice retentionLess files
        if maxRetain < 0 then
          (Completion.panicked, none, s1, [Event.list provider.addr files err])
        else
          let toDelete := sorted.drop maxRetain.toNat
          match deleteLoop provider toDelete s1 with
          | (s2, evs) => (Completion.done, none, s2, Event.list provider.addr files err :: evs)

/-- The body of the upload loop of `processSnapshot` (main.go lines 162 to
179) for one provider `p`. -/
def uploadOne {σ : Type} (env : Env σ) (p : Provider σ) (filename : String)
    (SnapshotRetain : Int) (s : σ) : Completion × σ × List Event :=
  match env.Seek s with
  | (seekErr, s1) =>
    match seekErr with
    | some _ => (Completion.done, s1, [Event.seek p.addr seekErr])
    | none =>
      match p.Save filename s1 with
      | (saveErr, s2) =>
        match saveErr with
        | some _ =>
          (Completion.done, s2, [Event.seek p.addr seekErr, Event.save p.addr filename saveErr])
        | none =>
          if SnapshotRetain > 0 then
            match enforceRetention env p SnapshotRetain s2 with
            | (r, _, s3, evs) =>
              (r, s3, [Event.seek p.addr seekErr, Event.save p.addr filename saveErr] ++ evs)
          else
            (Completion.done, s2, [Event.seek p.addr seekErr, Event.save p.addr filename saveErr])

/-- The upload loop of `processSnapshot` (`for _, s := range storages`). -/
def uploadLoop {σ : Type} (env : Env σ) (storages : List (Provider σ)) (filename : String)
    (SnapshotRetain : Int) (s : σ) : Completion × σ × List Event :=
  match storages with
  | [] => (Completion.done, s, [])
  | p :: rest =>
    match uploadOne env p filename SnapshotRetain s with
    | (Completion.panicked, s1, evs) => (Completion.panicked, s1, evs)
    | (Completion.done, s1, evs) =>
      match uploadLoop env rest filename SnapshotRetain s1 with
      | (r, s2, evs2) => (r, s2, evs ++ evs2)

/-- The deferred calls of `processSnapshot`, run on every exit once the
temporary file exists: `tmpFile.Close()`, then `os.Remove(tmpFile.Name())`. -/
def runDeferred {σ : Type} (env : Env σ) (s : σ) : σ × List Event :=
  (env.Remove (env.Close s), [Event.closeTemp, Event.removeTemp])

/-- The recency check of `processSnapshot` (main.go line 135):
`!latestCheck.IsZero() && time.Since(latestCheck) < (cfg.SnapshotFreq/2)`; the
clock is read only when the left operand holds. -/
def recentlyTaken {σ : Type} (env : Env σ) (latestCheck : Time) (cfg : Config) (s : σ) :
    Bool × σ :=
  if latestCheck.IsZero then (false, s)
  else
    match env.Now s with
    | (now, s1) => (decide (Since now latestCheck < Duration.div cfg.SnapshotFreq 2), s1)

/-- `processSnapshot` from the creation of the temporary file on (main.go
lines 140 to 180): acquisition, upload to every provider, retention. -/
def acquireAndUpload {σ : Type} (env : Env σ) (c : Client) (storages : List (Provider σ))
    (cfg : Config) (s : σ) : Completion × Client × σ × List Event :=
  match env.CreateTemp s with
  | (tmpErr, s1) =>
    match tmpErr with
    | some _ => (Completion.done, c, s1, [Event.createTemp tmpErr])
    | none =>
      match env.Now s1 with
      | (_, s2) =>
        match TakeSnapshot env c s2 with
        | (snapErr, c1, s3, evT) =>
          match snapErr with
          | some _ =>
            match runDeferred env s3 with
            | (s4, evD) => (Completion.done, c1, s4, [Event.createTemp tmpErr] ++ evT ++ evD)
          | none =>
            match env.Now s3 with
            | (_, s4) =>
              match env.Stat s4 with
              | (statErr, s5) =>
                match statErr with
                | some _ =>
                  match runDeferred env s5 with
                  | (s6, evD) =>
                    (Completion.panicked, c1, s6,
                      [Event.createTemp tmpErr] ++ evT ++ [Event.stat statErr] ++ evD)
                | none =>
                  match env.FormatNow s5 with
                  | (timestampName, s6) =>
                    let filename := cfg.SnapshotPrefix ++ timestampName ++ ".snap"
                    match uploadLoop env storages filename cfg.SnapshotRetain s6 with
                    | (r, s7, evU) =>
                      match runDeferred env s7 with
                      | (s8, evD) =>
                        (r, c1, s8,
                          [Event.createTemp tmpErr] ++ evT ++ [Event.stat statErr] ++ evU ++ evD)

/-- `processSnapshot(ctx, v, storages, cfg, loc)`: how the call ends, the
client and the external state after it, and the calls made. -/
def processSnapshot {σ : Type} (env : Env σ) (v : Client) (storages : List (Provider σ))
    (cfg : Config) (s : σ) : Completion × Client × σ × List Event :=
  match IsLeader env v s with
  | ((isLeader, err), v1, s1, evL) =>
    match err with
    | some _ => (Completion.done, v1, s1, evL)
    | none =>
      if !isLeader then (Completion.done, v1, s1, evL)
      else
        match getLastSnapshotFromAllStorages storages s1 with
        | (latestCheck, s2, evC) =>
          match recentlyTaken env latestCheck cfg s2 with
          | (true, s3) => (Completion.done, v1, s3, evL ++ evC)
          | (false, s3) =>
            match acquireAndUpload env v1 storages cfg s3 with
            | (r, v2, s4, evA) => (r, v2, s4, evL ++ evC ++ evA)

/-- The schedule computation of one iteration of `runDynamicScheduler`
(main.go lines 88 to 103): the last snapshot time from the storages, the clock
reading, and the wait derived from them. -/
def scheduleWait {σ : Type} (storages : List (Provider σ)) (env : Env σ) (cfg : Config) (s : σ) :
    Int × σ × List Event :=
  match getLastSnapshotFromAllStorages storages s with
  | (lastSnapshotTime, s1, evs) =>
    match env.Now s1 with
    | (now, s2) => (waitDuration lastSnapshotTime cfg.SnapshotFreq now, s2, evs)

/-! ## Reading the event list -/

/-- The providers on which `List` was called, in call order. -/
def listCalls (evs : List Event) : List Nat :=
  evs.filterMap (fun e => match e with
    | Event.list a _ _ => some a
    | _ => none)

/-- The records returned by the `List` calls that succeeded, in call order. -/
def listedRecords (evs : List Event) : List FileInfo :=
  evs.flatMap (fun e => match e with
    | Event.list _ files none => files
    | _ => [])

/-- The records returned by all the `List` calls, failed ones included. -/
def returnedRecords (evs : List Event) : List FileInfo :=
  evs.flatMap (fun e => match e with
    | Event.list _ files _ => files
    | _ => [])

/-- The providers on which `Save` was called, in call order. -/
def saveCalls (evs : List Event) : List Nat :=
  evs.filterMap (fun e => match e with
    | Event.save a _ _ => some a
    | _ => none)

/-- The providers whose loop iteration rewound the temporary file, in order. -/
def seekCalls (evs : List Event) : List Nat :=
  evs.filterMap (fun e => match e with
    | Event.seek a _ => some a
    | _ => none)

/-- The `Delete` calls, in call order: the provider and the key of each. -/
def deleteCalls (evs : List Event) : List (Nat × String) :=
  evs.filterMap (fun e => match e with
    | Event.delete a key _ => some (a, key)
    | _ => none)

/-- The number of calls of the cluster API `Leader`. -/
def leaderCalls (evs : List Event) : Nat :=
  evs.countP (fun e => match e with
    | Event.leader _ => true
    | _ => false)

/-- The number of calls of the cluster API `RaftSnapshotWithContext`. -/
def snapshotCalls (evs : List Event) : Nat :=
  evs.countP (fun e => match e with
    | Event.raftSnapshot _ => true
    | _ => false)

/-- The number of login calls. -/
def loginCalls (evs : List Event) : Nat :=
  evs.countP (fun e => match e with
    | Event.login _ => true
    | _ => false)

/-- The tokens installed by `SetToken`, in call order. -/
def tokensSet (evs : List Event) : List String :=
  evs.filterMap (fun e => match e with
    | Event.setToken tok => some tok
    | _ => none)

/-- Whether the event touches a storage provider's contents or takes a
snapshot: `Save`, `Delete`, `RaftSnapshotWithContext`, or the creation of the
temporary file that starts an acquisition. -/
def Event.isWork (e : Event) : Bool :=
  match e with
  | Event.save _ _ _ => true
  | Event.delete _ _ _ => true
  | Event.raftSnapshot _ => true
  | Event.createTemp _ => true
  | _ => false

/-- The contract of `sort.Slice` for a comparison `less`: the slice after is
a rearrangement of the slice before, and no element is `less` than one placed
before it. The library sort is not stable. -/
def SortsBy (less : FileInfo → FileInfo → Bool) (out inp : List FileInfo) : Prop :=
  out.Perm inp ∧ out.Pairwise (fun a b => less b a = false)

/-- The calls of one iteration of the upload loop for the provider at `a`:
a failed rewind; or a rewind and a failed `Save`; or a rewind and a `Save` with
retention switched off; or a rewind, a `Save` and the retention pass (one
`List`, then `Delete` calls). -/
def IterTrace (a : Nat) (filename : String) (retain : Int) (evs : List Event) : Prop :=
  (∃ e, evs = [Event.seek a (some e)]) ∨
  (∃ e, evs = [Event.seek a none, Event.save a filename (some e)]) ∨
  (retain ≤ 0 ∧ evs = [Event.seek a none, Event.save a filename none]) ∨
  (0 < retain ∧ ∃ files err evsD,
    evs = [Event.seek a none, Event.save a filename none, Event.list a files err] ++ evsD ∧
    ∀ e ∈ evsD, ∃ key derr, e = Event.delete a key derr)

/-- What the event list of the upload loop over the providers `addrs` obeys. -/
def UploadTrace (addrs : List Nat) (filename : String) (retain : Int) (evs : List Event) :
    Prop :=
  seekCalls evs = addrs ∧
  (∀ a, a ∈ saveCalls evs ↔ Event.seek a none ∈ evs) ∧
  (saveCalls evs).Sublist addrs ∧
  (∀ a f err, Event.save a f err ∈ evs → f = filename) ∧
  (∀ a, a ∈ listCalls evs ↔ ((Event.save a filename none ∈ evs) ∧ 0 < retain)) ∧
  (∀ x ∈ deleteCalls evs, x.1 ∈ listCalls evs) ∧
  ((∀ a e, Event.seek a (some e) ∉ evs) → saveCalls evs = addrs)

/-! ## Concrete backends and environments for the examples -/

/-- An in-memory backend over the list of records it holds: `List` returns
them, `Save` adds a record stamped `stamp`, `Delete` removes the key, or fails
with `deleteErr` and removes nothing. -/
def memProvider (addr : Nat) (stamp : Time) (deleteErr : Option String) :
    Provider (List FileInfo) where
  addr := addr
  Name := "mem"
  Save := fun filename s => (none, s ++ [⟨filename, stamp⟩])
  List := fun s => ((s, none), s)
  Delete := fun key s =>
    match deleteErr with
    | some e => (some e, s)
    | none => (none, s.filter (fun f => f.Key ≠ key))

/-- A backend in trouble: every call fails with `e`; `List` returns the
records `listed` it had read before the failure, next to the error (as the
directory walk of the local backend does). -/
def downProvider (addr : Nat) (listed : List FileInfo) (e : String) :
    Provider (List FileInfo) where
  addr := addr
  Name := "down"
  Save := fun _ s => (some e, s)
  List := fun s => ((listed, some e), s)
  Delete := fun _ s => (some e, s)

/-- An environment with scripted answers: the cluster answers as a function of
the token of the request, the clock stands at `now`, rewinding the temporary
file gives `seekErr`, and the sort is insertion sort. -/
def simEnv (leader : String → LeaderResponse × Option String)
    (snapshot : String → Option String) (login : Option Secret × Option String)
    (now : Time) (seekErr : Option String) : Env (List FileInfo) where
  unicodeToLower := Char.toLower
  SortSlice := fun less files => files.insertionSort (fun a b => less b a = false)
  Leader := fun tok s => (leader tok, s)
  RaftSnapshot := fun tok s => (snapshot tok, s)
  Write := fun _ _ _ s => (login, s)
  Now := fun s => (now, s)
  FormatNow := fun s => ("04-11-2026-10-00-00", s)
  CreateTemp := fun s => (none, s)
  Seek := fun s => (seekErr, s)
  Stat := fun s => (none, s)
  Close := fun s => s
  Remove := fun s => s

/-- A cluster that accepts only the token `good`: any other token gets the
error `denied`. -/
def leaderIfToken (good : String) (denied : String) (tok : String) :
    LeaderResponse × Option String :=
  if tok = good then (⟨true⟩, none) else (⟨false⟩, some denied)

/-- A snapshot endpoint that accepts only the token `good`. -/
def snapshotIfToken (good : String) (denied : String) (tok : String) : Option String :=
  if tok = good then none else some denied

/-! ## Theorems: time -/

theorem two_pow_63 : (2 : Int) ^ 63 = 9223372036854775808 := by norm_num

theorem two_pow_64 : (2 : Int) ^ 64 = 18446744073709551616 := by norm_num

theorem wrapInt64_of_inRange (x : Int) (h : Duration.InRange x) : wrapInt64 x = x := by
  unfold Duration.InRange minDuration maxDuration at h
  unfold wrapInt64
  rw [two_pow_63] at h
  rw [two_pow_63, two_pow_64]
  omega

theorem wrapInt64_inRange (x : Int) : Duration.InRange (wrapInt64 x) := by
  unfold Duration.InRange minDuration maxDuration wrapInt64
  rw [two_pow_63, two_pow_64]
  omega

/-- `Time.Sub` is the exact difference clamped to the range of `Duration`. -/
theorem Time.Sub_eq_clamp (t u : Time) :
    t.Sub u = max (-(2 : Int) ^ 63) (min (t.ns - u.ns) ((2 : Int) ^ 63 - 1)) := by
  have hw := wrapInt64_inRange (t.ns - u.ns)
  by_cases hr : Duration.InRange (t.ns - u.ns)
  · have hx := wrapInt64_of_inRange _ hr
    unfold Duration.InRange minDuration maxDuration at hr
    have hadd : u.Add (t.ns - u.ns) = t := by
      cases t; cases u; simp [Time.Add]
    simp only [Time.Sub, hx, hadd, if_true]
    rw [two_pow_63] at hr ⊢
    omega
  · have hne : wrapInt64 (t.ns - u.ns) ≠ t.ns - u.ns := fun h => hr (h ▸ hw)
    have hadd : ¬ (u.Add (wrapInt64 (t.ns - u.ns)) = t) := by
      intro h
      apply hne
      have := congrArg Time.ns h
      simp only [Time.Add] at this
      omega
    unfold Duration.InRange minDuration maxDuration at hr
    simp only [Time.Sub, hadd, if_false, Time.Before]
    rw [two_pow_63] at hr ⊢
    by_cases hlt : t.ns < u.ns
    · simp only [hlt, decide_True, if_true, minDuration]
      rw [two_pow_63]
      omega
    · simp only [hlt, decide_False, Bool.false_eq_true, if_false, maxDuration]
      rw [two_pow_63]
      omega

/-! ## Theorems: the wait of the scheduler -/

/-- C2, as stated, fails: a newest snapshot dated about 301 years after the
clock reading (here `now` is in 2026, the frequency one hour) is neither "none"
nor overdue, and the wait is the largest `Duration`, not
`lastSnapshotInstant + frequency - now`. -/
theorem waitDuration_not_exact :
    (Time.mk (73400000000 * 10 ^ 9)).IsZero = false ∧
    decide ((Time.mk (63900000000 * 10 ^ 9)).ns
      ≥ (Time.mk (73400000000 * 10 ^ 9)).ns + 3600 * 10 ^ 9) = false ∧
    waitDuration (Time.mk (73400000000 * 10 ^ 9)) (3600 * 10 ^ 9)
      (Time.mk (63900000000 * 10 ^ 9)) = 9223372036854775807 ∧
    (Time.mk (73400000000 * 10 ^ 9)).ns + 3600 * 10 ^ 9
      - (Time.mk (63900000000 * 10 ^ 9)).ns = 9500003600000000000 := by
  decide

/-- C2, amended: the wait of one iteration is 0 when the last snapshot instant
is "none", 0 when `now >= lastSnapshotInstant + frequency`, and otherwise
`lastSnapshotInstant + frequency - now` capped at the largest `Duration`
(`2^63 - 1` nanoseconds); so it is exactly that difference whenever the
difference fits a `Duration`. -/
theorem waitDuration_spec (lastSnapshotTime : Time) (SnapshotFreq : Int) (now : Time) :
    (lastSnapshotTime.IsZero = true → waitDuration lastSnapshotTime SnapshotFreq now = 0) ∧
    (lastSnapshotTime.IsZero = false → now.ns ≥ lastSnapshotTime.ns + SnapshotFreq →
      waitDuration lastSnapshotTime SnapshotFreq now = 0) ∧
    (lastSnapshotTime.IsZero = false → now.ns < lastSnapshotTime.ns + SnapshotFreq →
      waitDuration lastSnapshotTime SnapshotFreq now
        = min (lastSnapshotTime.ns + SnapshotFreq - now.ns) maxDuration) ∧
    (lastSnapshotTime.IsZero = false → now.ns < lastSnapshotTime.ns + SnapshotFreq →
      lastSnapshotTime.ns + SnapshotFreq - now.ns ≤ maxDuration →
      waitDuration lastSnapshotTime SnapshotFreq now
        = lastSnapshotTime.ns + SnapshotFreq - now.ns) := by
  have hsub := Time.Sub_eq_clamp (lastSnapshotTime.Add SnapshotFreq) now
  simp only [Time.Add] at hsub
  refine ⟨?_, ?_, ?_, ?_⟩
  · intro hz
    simp [waitDuration, hz]
  · intro hz hge
    by_cases hlt : lastSnapshotTime.ns + SnapshotFreq < now.ns
    · simp [waitDuration, hz, Time.After, Time.Add, hlt]
    · have heq : lastSnapshotTime.ns + SnapshotFreq - now.ns = 0 := by omega
      simp only [waitDuration, hz, Time.After, Time.Add, hlt, decide_False,
        Bool.false_eq_true, if_false, hsub, heq]
      rw [two_pow_63]
      omega
  · intro hz hlt
    have hnot : ¬ (lastSnapshotTime.ns + SnapshotFreq < now.ns) := by omega
    simp only [waitDuration, hz, Time.After, Time.Add, hnot, decide_False,
      Bool.false_eq_true, if_false, hsub, maxDuration]
    rw [two_pow_63]
    omega
  · intro hz hlt hfit
    have hnot : ¬ (lastSnapshotTime.ns + SnapshotFreq < now.ns) := by omega
    unfold maxDuration at hfit
    simp only [waitDuration, hz, Time.After, Time.Add, hnot, decide_False,
      Bool.false_eq_true, if_false, hsub]
    rw [two_pow_63] at hfit ⊢
    omega

/-- The wait computed by the schedule step is `waitDuration` of the last
snapshot time found in the storages and of the clock reading taken after the
listing. -/
theorem scheduleWait_eq {σ : Type} (storages : List (Provider σ)) (env : Env σ) (cfg : Config)
    (s : σ) :
    (scheduleWait storages env cfg s).1 =
      waitDuration (getLastSnapshotFromAllStorages storages s).1 cfg.SnapshotFreq
        (env.Now (getLastSnapshotFromAllStorages storages s).2.1).1 := by
  unfold scheduleWait
  rfl

/-! ## Theorems: classification of errors -/

theorem Contains_iff (s substr : String) :
    Contains s substr = true ↔ substr.data <:+: s.data := by
  unfold Contains
  rw [List.any_eq_true, List.infix_iff_prefix_suffix]
  constructor
  · rintro ⟨t, ht, hp⟩
    exact ⟨t, List.isPrefixOf_iff_prefix.mp hp, (List.mem_tails _ _).mp ht⟩
  · rintro ⟨t, hp, ht⟩
    exact ⟨t, (List.mem_tails _ _).mpr ht, List.isPrefixOf_iff_prefix.mpr hp⟩

/-- C8, as stated, fails: an error text "forbidden" contains the marker
"forbidden" and one "invalid credential" the marker "invalid credential", yet
neither is classified as authentication-class; and the text "403" is
classified as authentication-class though it contains none of the three
markers of the claim. -/
theorem checkAuthError_markers_differ :
    Contains (ToLower Char.toLower "forbidden") "forbidden" = true ∧
    checkAuthError Char.toLower (some "forbidden") = false ∧
    Contains (ToLower Char.toLower "invalid credential") "invalid credential" = true ∧
    checkAuthError Char.toLower (some "invalid credential") = false ∧
    checkAuthError Char.toLower (some "403") = true ∧
    Contains (ToLower Char.toLower "403") "forbidden" = false ∧
    Contains (ToLower Char.toLower "403") "permission denied" = false ∧
    Contains (ToLower Char.toLower "403") "invalid credential" = false := by
  decide

/-- C8, amended: `checkAuthError` classifies an error as authentication-class
exactly when its text, lower-cased, contains one of the markers "403",
"permission denied" or "invalid token"; a nil error is never
authentication-class. -/
theorem checkAuthError_spec (lower : Char → Char) (err : Option String) :
    (checkAuthError lower err = true ↔
      ∃ text, err = some text ∧
        ("403".data <:+: text.data.map lower ∨
         "permission denied".data <:+: text.data.map lower ∨
         "invalid token".data <:+: text.data.map lower)) ∧
    checkAuthError lower none = false := by
  refine ⟨?_, rfl⟩
  cases err with
  | none => simp [checkAuthError]
  | some text =>
    simp only [checkAuthError, Bool.or_eq_true, Contains_iff, ToLower, Option.some.injEq,
      exists_eq_left']
    tauto

/-! ## Theorems: the last snapshot time -/

theorem scanFiles_spec (files : List FileInfo) (t0 : Time) :
    t0.ns ≤ (scanFiles files t0).ns ∧
    (∀ f ∈ files, f.LastModified.ns ≤ (scanFiles files t0).ns) ∧
    (scanFiles files t0 = t0 ∨ ∃ f ∈ files, f.LastModified = scanFiles files t0) := by
  induction files generalizing t0 with
  | nil => simp [scanFiles]
  | cons f rest ih =>
    by_cases hafter : t0.ns < f.LastModified.ns
    · obtain ⟨h1, h2, h3⟩ := ih f.LastModified
      simp only [scanFiles, Time.After, hafter, decide_True, if_true, List.mem_cons,
        forall_eq_or_imp, exists_eq_or_imp]
      refine ⟨by omega, ⟨h1, h2⟩, Or.inr ?_⟩
      rcases h3 with h3 | h3
      · exact Or.inl h3.symm
      · exact Or.inr h3
    · obtain ⟨h1, h2, h3⟩ := ih t0
      simp only [scanFiles, Time.After, hafter, decide_False, Bool.false_eq_true, if_false,
        List.mem_cons, forall_eq_or_imp, exists_eq_or_imp]
      refine ⟨h1, ⟨by omega, h2⟩, ?_⟩
      rcases h3 with h3 | h3
      · exact Or.inl h3
      · exact Or.inr (Or.inr h3)

theorem listCalls_cons_list (a : Nat) (files : List FileInfo) (err : Option String)
    (evs : List Event) : listCalls (Event.list a files err :: evs) = a :: listCalls evs := by
  simp [listCalls]

theorem listedRecords_cons_ok (a : Nat) (files : List FileInfo) (evs : List Event) :
    listedRecords (Event.list a files none :: evs) = files ++ listedRecords evs := by
  simp [listedRecords, List.flatMap_cons]

theorem listedRecords_cons_err (a : Nat) (files : List FileInfo) (e : String)
    (evs : List Event) :
    listedRecords (Event.list a files (some e) :: evs) = listedRecords evs := by
  simp [listedRecords, List.flatMap_cons]

theorem getLastLoop_spec {σ : Type} (storages : List (Provider σ)) (t0 : Time) (s : σ) :
    listCalls (getLastLoop storages t0 s).2.2 = storages.map (fun p => p.addr) ∧
    t0.ns ≤ (getLastLoop storages t0 s).1.ns ∧
    (∀ f ∈ listedRecords (getLastLoop storages t0 s).2.2,
      f.LastModified.ns ≤ (getLastLoop storages t0 s).1.ns) ∧
    ((getLastLoop storages t0 s).1 = t0 ∨
      ∃ f ∈ listedRecords (getLastLoop storages t0 s).2.2,
        f.LastModified = (getLastLoop storages t0 s).1) := by
  induction storages generalizing t0 s with
  | nil => simp [getLastLoop, listCalls, listedRecords]
  | cons p rest ih =>
    rcases hl : p.List s with ⟨⟨files, err⟩, s1⟩
    cases err with
    | some e =>
      obtain ⟨h0, h1, h2, h3⟩ := ih t0 s1
      rcases hr : getLastLoop rest t0 s1 with ⟨t, s2, evs⟩
      rw [hr] at h0 h1 h2 h3
      simp only [getLastLoop, hl, hr, listCalls_cons_list, listedRecords_cons_err,
        List.map_cons]
      exact ⟨by rw [h0], h1, h2, h3⟩
    | none =>
      obtain ⟨h0, h1, h2, h3⟩ := ih (scanFiles files t0) s1
      obtain ⟨g1, g2, g3⟩ := scanFiles_spec files t0
      rcases hr : getLastLoop rest (scanFiles files t0) s1 with ⟨t, s2, evs⟩
      rw [hr] at h0 h1 h2 h3
      simp only [getLastLoop, hl, hr, listCalls_cons_list, listedRecords_cons_ok,
        List.map_cons, List.mem_append]
      simp only at h0 h1 h2 h3
      refine ⟨by rw [h0], by omega, ?_, ?_⟩
      · rintro f (hf | hf)
        · have := g2 f hf
          omega
        · exact h2 f hf
      · rcases h3 with h3 | ⟨f, hf, hfe⟩
        · rcases g3 with g3 | ⟨f, hf, hfe⟩
          · exact Or.inl (h3.trans g3)
          · exact Or.inr ⟨f, Or.inl hf, hfe.trans h3.symm⟩
        · exact Or.inr ⟨f, Or.inr hf, hfe⟩

/-- C1, as stated, fails: a provider whose list holds one record dated at the
zero time makes the result "none" although its list is not empty; with one
record dated before the zero time the result is the zero time, which is not
the `LastModified` of any record returned; and a provider whose `List` returns
one record next to an error is skipped, so that the result is "none" although
the list it returned is not empty. -/
theorem getLastSnapshot_none_with_records :
    (memProvider 1 Time.zero none).List [FileInfo.mk "raft-snapshot-a.snap" Time.zero]
      = (([FileInfo.mk "raft-snapshot-a.snap" Time.zero], none),
          [FileInfo.mk "raft-snapshot-a.snap" Time.zero]) ∧
    (getLastSnapshotFromAllStorages [memProvider 1 Time.zero none]
      [FileInfo.mk "raft-snapshot-a.snap" Time.zero]).1.IsZero = true ∧
    returnedRecords (getLastSnapshotFromAllStorages [memProvider 1 Time.zero none]
      [FileInfo.mk "raft-snapshot-b.snap" (Time.mk (-5))]).2.2
      = [FileInfo.mk "raft-snapshot-b.snap" (Time.mk (-5))] ∧
    (getLastSnapshotFromAllStorages [memProvider 1 Time.zero none]
      [FileInfo.mk "raft-snapshot-b.snap" (Time.mk (-5))]).1 = Time.mk 0 ∧
    getLastSnapshotFromAllStorages
        [downProvider 1 [FileInfo.mk "raft-snapshot-c.snap" (Time.mk (63900000000 * 10 ^ 9))]
          "permission denied"] []
      = (Time.zero, [],
          [Event.list 1 [FileInfo.mk "raft-snapshot-c.snap" (Time.mk (63900000000 * 10 ^ 9))]
            (some "permission denied")]) := by
  decide

/-- C1, amended: `getLastSnapshotFromAllStorages` calls `List` once on every
provider, in order, and returns the later of the zero time and the maximum
`LastModified` over the records returned by the `List` calls that succeeded (a
provider whose `List` fails is skipped): no such record is later than the
result, the result is the `LastModified` of one of them whenever one of them is
later than the zero time, and the result is "none" (the zero time) if and only
if none of them is later than the zero time, as when every list is empty. -/
theorem getLastSnapshotFromAllStorages_spec {σ : Type} (storages : List (Provider σ)) (s : σ) :
    listCalls (getLastSnapshotFromAllStorages storages s).2.2
      = storages.map (fun p => p.addr) ∧
    (∀ f ∈ listedRecords (getLastSnapshotFromAllStorages storages s).2.2,
      f.LastModified.ns ≤ (getLastSnapshotFromAllStorages storages s).1.ns) ∧
    ((∃ f ∈ listedRecords (getLastSnapshotFromAllStorages storages s).2.2,
        f.LastModified.After Time.zero = true) →
      ∃ f ∈ listedRecords (getLastSnapshotFromAllStorages storages s).2.2,
        f.LastModified = (getLastSnapshotFromAllStorages storages s).1) ∧
    ((getLastSnapshotFromAllStorages storages s).1.IsZero = true ↔
      ∀ f ∈ listedRecords (getLastSnapshotFromAllStorages storages s).2.2,
        f.LastModified.After Time.zero = false) ∧
    (listedRecords (getLastSnapshotFromAllStorages storages s).2.2 = [] →
      (getLastSnapshotFromAllStorages storages s).1.IsZero = true) := by
  obtain ⟨h0, h1, h2, h3⟩ := getLastLoop_spec storages Time.zero s
  unfold getLastSnapshotFromAllStorages
  generalize getLastLoop storages Time.zero s = out at h0 h1 h2 h3
  have hz : Time.zero.ns = 0 := rfl
  have hiff : out.1.IsZero = true ↔
      ∀ f ∈ listedRecords out.2.2, f.LastModified.After Time.zero = false := by
    simp only [Time.IsZero, Time.After, decide_eq_true_eq, decide_eq_false_iff_not, hz]
    constructor
    · intro h f hf
      have := h2 f hf
      omega
    · intro h
      rcases h3 with h3 | ⟨f, hf, hfe⟩
      · rw [h3]; rfl
      · have := h f hf
        rw [hfe] at this
        rw [hz] at h1
        omega
  refine ⟨h0, h2, ?_, hiff, ?_⟩
  · rintro ⟨f, hf, hpos⟩
    rcases h3 with h3 | h3
    · exfalso
      have := h2 f hf
      simp only [Time.After, decide_eq_true_eq, hz] at hpos
      rw [h3, hz] at this
      omega
    · exact h3
  · intro hnil
    rw [hiff, hnil]
    simp

/-! ## Theorems: authentication -/

theorem Authenticate_calls {σ : Type} (env : Env σ) (c : Client) (s : σ) :
    leaderCalls (Authenticate env c s).2.2.2 = 0 ∧
    snapshotCalls (Authenticate env c s).2.2.2 = 0 ∧
    loginCalls (Authenticate env c s).2.2.2 ≤ 1 := by
  unfold Authenticate
  split
  · simp [leaderCalls, snapshotCalls, loginCalls]
  · split
    · rcases env.Write c.apiToken c.roleID c.secretID s with ⟨⟨secret, err⟩, s1⟩
      rcases err with _ | e
      · rcases secret with _ | sec
        · simp [leaderCalls, snapshotCalls, loginCalls]
        · rcases hauth : sec.Auth with _ | auth <;>
            simp [hauth, leaderCalls, snapshotCalls, loginCalls]
      · simp [leaderCalls, snapshotCalls, loginCalls]
    · simp [leaderCalls, snapshotCalls, loginCalls]

/-- C9: `Authenticate` picks its mode in priority order. With a non-empty
static token the token is installed as it is, no login call is made and the
result is success, whatever the role id and secret id are. Otherwise, with a
non-empty role id and a non-empty secret id, exactly one login call is made,
and when it succeeds with auth data the client token it returned is installed
and the result is success; when it fails, or returns no auth data, the result
is an error and no token is installed. Otherwise `Authenticate` fails without
any call, and the installed token and the external state are unchanged. -/
theorem Authenticate_spec {σ : Type} (env : Env σ) (c : Client) (s : σ) :
    (c.token ≠ "" →
      Authenticate env c s
        = (none, { c with apiToken := c.token }, s, [Event.setToken c.token]) ∧
      loginCalls (Authenticate env c s).2.2.2 = 0) ∧
    (c.token = "" → c.roleID ≠ "" → c.secretID ≠ "" →
      loginCalls (Authenticate env c s).2.2.2 = 1 ∧
      (Authenticate env c s).2.2.1 = (env.Write c.apiToken c.roleID c.secretID s).2 ∧
      (∀ auth, (env.Write c.apiToken c.roleID c.secretID s).1 = (some ⟨some auth⟩, none) →
        (Authenticate env c s).1 = none ∧
        (Authenticate env c s).2.1 = { c with apiToken := auth.ClientToken } ∧
        tokensSet (Authenticate env c s).2.2.2 = [auth.ClientToken]) ∧
      ((∀ auth, (env.Write c.apiToken c.roleID c.secretID s).1 ≠ (some ⟨some auth⟩, none)) →
        (Authenticate env c s).1 ≠ none ∧
        (Authenticate env c s).2.1 = c ∧
        tokensSet (Authenticate env c s).2.2.2 = [])) ∧
    (c.token = "" → (c.roleID = "" ∨ c.secretID = "") →
      Authenticate env c s
        = (some "no valid authentication method configured", c, s, [])) := by
  refine ⟨?_, ?_, ?_⟩
  · intro ht
    simp [Authenticate, ht, loginCalls]
  · intro ht hr hs
    unfold Authenticate
    rw [if_neg (by simp [ht]), if_pos ⟨hr, hs⟩]
    rcases env.Write c.apiToken c.roleID c.secretID s with ⟨⟨secret, err⟩, s1⟩
    rcases err with _ | e
    · rcases secret with _ | sec
      · simp [loginCalls, tokensSet]
      · rcases sec with ⟨_ | auth⟩
        · simp [loginCalls, tokensSet]
        · simp [loginCalls, tokensSet]
    · simp [loginCalls, tokensSet]
  · intro ht hno
    unfold Authenticate
    rw [if_neg (by simp [ht]), if_neg (by tauto)]

/-- C9 at concrete inputs: a client with a static token and a role id and
secret id installs the static token without a login call; a client with only a
role id and a secret id logs in once and installs the token the login returned;
a client with nothing configured fails without a call. -/
theorem Authenticate_spec_witness :
    Authenticate (simEnv (leaderIfToken "t1" "permission denied")
        (snapshotIfToken "t1" "permission denied") (some ⟨some ⟨"t1"⟩⟩, none) ⟨0⟩ none)
        ⟨"", "role", "secret", "static"⟩ []
      = (none, ⟨"static", "role", "secret", "static"⟩, [], [Event.setToken "static"]) ∧
    tokensSet (Authenticate (simEnv (leaderIfToken "t1" "permission denied")
        (snapshotIfToken "t1" "permission denied") (some ⟨some ⟨"t1"⟩⟩, none) ⟨0⟩ none)
        ⟨"old", "role", "secret", ""⟩ []).2.2.2 = ["t1"] ∧
    Authenticate (simEnv (leaderIfToken "t1" "permission denied")
        (snapshotIfToken "t1" "permission denied") (some ⟨some ⟨"t1"⟩⟩, none) ⟨0⟩ none)
        ⟨"old", "role", "", ""⟩ []
      = (some "no valid authentication method configured", ⟨"old", "role", "", ""⟩, [], []) :=
  ⟨((Authenticate_spec _ ⟨"", "role", "secret", "static"⟩ []).1 (by decide)).1,
   (((Authenticate_spec (simEnv (leaderIfToken "t1" "permission denied")
        (snapshotIfToken "t1" "permission denied") (some ⟨some ⟨"t1"⟩⟩, none) ⟨0⟩ none)
        ⟨"old", "role", "secret", ""⟩ []).2.1 rfl (by decide) (by decide)).2.2.1
        ⟨"t1"⟩ rfl).2.2,
   (Authenticate_spec _ ⟨"old", "role", "", ""⟩ []).2.2 rfl (Or.inr rfl)⟩

/-! ## Theorems: retry after re-authentication -/

theorem checkAuthError_some (lower : Char → Char) (err : Option String)
    (h : checkAuthError lower err = true) : ∃ e, err = some e := by
  cases err with
  | none => simp [checkAuthError] at h
  | some e => exact ⟨e, rfl⟩

theorem leaderStatus_error (info : LeaderResponse) (e : String) :
    (leaderStatus info (some e)).2 ≠ none := by
  simp [leaderStatus]

theorem leaderCalls_cons_leader (err : Option String) (evs : List Event) :
    leaderCalls (Event.leader err :: evs) = leaderCalls evs + 1 := by
  simp [leaderCalls]

theorem leaderCalls_append (xs ys : List Event) :
    leaderCalls (xs ++ ys) = leaderCalls xs + leaderCalls ys := by
  simp [leaderCalls]

theorem snapshotCalls_cons_snapshot (err : Option String) (evs : List Event) :
    snapshotCalls (Event.raftSnapshot err :: evs) = snapshotCalls evs + 1 := by
  simp [snapshotCalls]

theorem snapshotCalls_append (xs ys : List Event) :
    snapshotCalls (xs ++ ys) = snapshotCalls xs + snapshotCalls ys := by
  simp [snapshotCalls]

/-- The retry policy of `IsLeader`, in terms of the first answer of the
cluster. -/
theorem IsLeader_retry {σ : Type} (env : Env σ) (c : Client) (s : σ)
    (info : LeaderResponse) (err : Option String) (s1 : σ)
    (h : env.Leader c.apiToken s = ((info, err), s1)) :
    (1 ≤ leaderCalls (IsLeader env c s).2.2.2 ∧ leaderCalls (IsLeader env c s).2.2.2 ≤ 2) ∧
    (leaderCalls (IsLeader env c s).2.2.2 = 2 ↔
      (checkAuthError env.unicodeToLower err = true ∧ (Authenticate env c s1).1 = none)) ∧
    (checkAuthError env.unicodeToLower err = true → (Authenticate env c s1).1 = none →
      IsLeader env c s =
        (leaderStatus
            (env.Leader (Authenticate env c s1).2.1.apiToken (Authenticate env c s1).2.2.1).1.1
            (env.Leader (Authenticate env c s1).2.1.apiToken (Authenticate env c s1).2.2.1).1.2,
          (Authenticate env c s1).2.1,
          (env.Leader (Authenticate env c s1).2.1.apiToken (Authenticate env c s1).2.2.1).2,
          [Event.leader err] ++ (Authenticate env c s1).2.2.2 ++
            [Event.leader (env.Leader (Authenticate env c s1).2.1.apiToken
              (Authenticate env c s1).2.2.1).1.2])) ∧
    (checkAuthError env.unicodeToLower err = false →
      IsLeader env c s = (leaderStatus info err, c, s1, [Event.leader err])) ∧
    (checkAuthError env.unicodeToLower err = true → (Authenticate env c s1).1 ≠ none →
      (IsLeader env c s).1 = leaderStatus info err ∧ (IsLeader env c s).1.2 ≠ none ∧
      (IsLeader env c s).2.2.2 = [Event.leader err] ++ (Authenticate env c s1).2.2.2 ∧
      leaderCalls (IsLeader env c s).2.2.2 = 1) := by
  obtain ⟨hA, -, -⟩ := Authenticate_calls env c s1
  by_cases hc : checkAuthError env.unicodeToLower err = true
  · obtain ⟨e, he⟩ := checkAuthError_some _ _ hc
    subst he
    rcases hAuth : Authenticate env c s1 with ⟨loginErr, c2, s2, evA⟩
    rw [hAuth] at hA
    simp only at hA
    cases loginErr with
    | none =>
      rcases h2 : env.Leader c2.apiToken s2 with ⟨⟨info2, err2⟩, s3⟩
      have hrun : IsLeader env c s
          = (leaderStatus info2 err2, c2, s3,
              [Event.leader (some e)] ++ evA ++ [Event.leader err2]) := by
        simp only [IsLeader, h, hc, if_true, hAuth, h2]
      rw [hrun]
      have h1 : leaderCalls [Event.leader err2] = 1 := rfl
      simp [hc, h2, leaderCalls_append, leaderCalls_cons_leader, hA, h1]
    | some le =>
      have hrun : IsLeader env c s
          = (leaderStatus info (some e), c2, s2, [Event.leader (some e)] ++ evA) := by
        simp only [IsLeader, h, hc, if_true, hAuth]
      rw [hrun]
      have hne := leaderStatus_error info e
      simp [hc, leaderCalls_cons_leader, hA, hne]
  · have hcf : checkAuthError env.unicodeToLower err = false := by
      simpa using hc
    have hrun : IsLeader env c s = (leaderStatus info err, c, s1, [Event.leader err]) := by
      simp [IsLeader, h, hcf]
    rw [hrun]
    simp [hcf, leaderCalls]

/-- The retry policy of `TakeSnapshot`, in terms of the first answer of the
cluster. -/
theorem TakeSnapshot_retry {σ : Type} (env : Env σ) (c : Client) (s : σ)
    (err : Option String) (s1 : σ)
    (h : env.RaftSnapshot c.apiToken s = (err, s1)) :
    (1 ≤ snapshotCalls (TakeSnapshot env c s).2.2.2 ∧
      snapshotCalls (TakeSnapshot env c s).2.2.2 ≤ 2) ∧
    (snapshotCalls (TakeSnapshot env c s).2.2.2 = 2 ↔
      (checkAuthError env.unicodeToLower err = true ∧ (Authenticate env c s1).1 = none)) ∧
    (checkAuthError env.unicodeToLower err = true → (Authenticate env c s1).1 = none →
      TakeSnapshot env c s =
        ((env.RaftSnapshot (Authenticate env c s1).2.1.apiToken
            (Authenticate env c s1).2.2.1).1,
          (Authenticate env c s1).2.1,
          (env.RaftSnapshot (Authenticate env c s1).2.1.apiToken
            (Authenticate env c s1).2.2.1).2,
          [Event.raftSnapshot err] ++ (Authenticate env c s1).2.2.2 ++
            [Event.raftSnapshot (env.RaftSnapshot (Authenticate env c s1).2.1.apiToken
              (Authenticate env c s1).2.2.1).1])) ∧
    (checkAuthError env.unicodeToLower err = false →
      TakeSnapshot env c s = (err, c, s1, [Event.raftSnapshot err])) ∧
    (checkAuthError env.unicodeToLower err = true → (Authenticate env c s1).1 ≠ none →
      (TakeSnapshot env c s).1 ≠ none ∧
      (TakeSnapshot env c s).2.2.2 = [Event.raftSnapshot err] ++ (Authenticate env c s1).2.2.2 ∧
      snapshotCalls (TakeSnapshot env c s).2.2.2 = 1) := by
  obtain ⟨-, hA, -⟩ := Authenticate_calls env c s1
  by_cases hc : checkAuthError env.unicodeToLower err = true
  · obtain ⟨e, he⟩ := checkAuthError_some _ _ hc
    subst he
    rcases hAuth : Authenticate env c s1 with ⟨loginErr, c2, s2, evA⟩
    rw [hAuth] at hA
    simp only at hA
    cases loginErr with
    | none =>
      rcases h2 : env.RaftSnapshot c2.apiToken s2 with ⟨err2, s3⟩
      have hrun : TakeSnapshot env c s
          = (err2, c2, s3, [Event.raftSnapshot (some e)] ++ evA ++ [Event.raftSnapshot err2]) := by
        simp only [TakeSnapshot, h, hc, Bool.not_true, Bool.false_eq_true, if_false, hAuth, h2]
      rw [hrun]
      have h1 : snapshotCalls [Event.raftSnapshot err2] = 1 := rfl
      simp [hc, h2, snapshotCalls_append, snapshotCalls_cons_snapshot, hA, h1]
    | some le =>
      have hrun : TakeSnapshot env c s
          = (some ("re-auth failed: " ++ le ++ " (original error: " ++ e ++ ")"), c2, s2,
              [Event.raftSnapshot (some e)] ++ evA) := by
        simp only [TakeSnapshot, h, hc, Bool.not_true, Bool.false_eq_true, if_false, hAuth]
      rw [hrun]
      simp [hc, snapshotCalls_cons_snapshot, hA]
  · have hcf : checkAuthError env.unicodeToLower err = false := by
      simpa using hc
    have hrun : TakeSnapshot env c s = (err, c, s1, [Event.raftSnapshot err]) := by
      cases err with
      | none => simp [TakeSnapshot, h]
      | some e => simp [TakeSnapshot, h, hcf]
    rw [hrun]
    simp [hcf, snapshotCalls]

/-- C7: `IsLeader` and `TakeSnapshot` follow a bounded retry policy. Let the
first cluster call of an invocation return the error `errL` (for `Leader`),
`errS` (for `RaftSnapshotWithContext`). The cluster call is made once or twice;
it is made twice exactly when the first error is authentication-class and the
re-authentication that follows succeeds, and then the second call is made
once, after the re-authentication, and its result is the result of the
invocation. When the first call succeeds or fails with an error that is not
authentication-class, the only call made is that one (no re-authentication, no
retry) and its result is returned. When the re-authentication fails, an error
is returned and the cluster call is not made again. -/
theorem retry_policy {σ : Type} (env : Env σ) (c : Client) (s : σ)
    (info : LeaderResponse) (errL : Option String) (sL : σ)
    (errS : Option String) (sS : σ)
    (hL : env.Leader c.apiToken s = ((info, errL), sL))
    (hS : env.RaftSnapshot c.apiToken s = (errS, sS)) :
    ((1 ≤ leaderCalls (IsLeader env c s).2.2.2 ∧ leaderCalls (IsLeader env c s).2.2.2 ≤ 2) ∧
      (leaderCalls (IsLeader env c s).2.2.2 = 2 ↔
        (checkAuthError env.unicodeToLower errL = true ∧ (Authenticate env c sL).1 = none)) ∧
      (checkAuthError env.unicodeToLower errL = true → (Authenticate env c sL).1 = none →
        IsLeader env c s =
          (leaderStatus
              (env.Leader (Authenticate env c sL).2.1.apiToken (Authenticate env c sL).2.2.1).1.1
              (env.Leader (Authenticate env c sL).2.1.apiToken (Authenticate env c sL).2.2.1).1.2,
            (Authenticate env c sL).2.1,
            (env.Leader (Authenticate env c sL).2.1.apiToken (Authenticate env c sL).2.2.1).2,
            [Event.leader errL] ++ (Authenticate env c sL).2.2.2 ++
              [Event.leader (env.Leader (Authenticate env c sL).2.1.apiToken
                (Authenticate env c sL).2.2.1).1.2])) ∧
      (checkAuthError env.unicodeToLower errL = false →
        IsLeader env c s = (leaderStatus info errL, c, sL, [Event.leader errL])) ∧
      (checkAuthError env.unicodeToLower errL = true → (Authenticate env c sL).1 ≠ none →
        (IsLeader env c s).1 = leaderStatus info errL ∧ (IsLeader env c s).1.2 ≠ none ∧
        (IsLeader env c s).2.2.2 = [Event.leader errL] ++ (Authenticate env c sL).2.2.2 ∧
        leaderCalls (IsLeader env c s).2.2.2 = 1)) ∧
    ((1 ≤ snapshotCalls (TakeSnapshot env c s).2.2.2 ∧
        snapshotCalls (TakeSnapshot env c s).2.2.2 ≤ 2) ∧
      (snapshotCalls (TakeSnapshot env c s).2.2.2 = 2 ↔
        (checkAuthError env.unicodeToLower errS = true ∧ (Authenticate env c sS).1 = none)) ∧
      (checkAuthError env.unicodeToLower errS = true → (Authenticate env c sS).1 = none →
        TakeSnapshot env c s =
          ((env.RaftSnapshot (Authenticate env c sS).2.1.apiToken
              (Authenticate env c sS).2.2.1).1,
            (Authenticate env c sS).2.1,
            (env.RaftSnapshot (Authenticate env c sS).2.1.apiToken
              (Authenticate env c sS).2.2.1).2,
            [Event.raftSnapshot errS] ++ (Authenticate env c sS).2.2.2 ++
              [Event.raftSnapshot (env.RaftSnapshot (Authenticate env c sS).2.1.apiToken
                (Authenticate env c sS).2.2.1).1])) ∧
      (checkAuthError env.unicodeToLower errS = false →
        TakeSnapshot env c s = (errS, c, sS, [Event.raftSnapshot errS])) ∧
      (checkAuthError env.unicodeToLower errS = true → (Authenticate env c sS).1 ≠ none →
        (TakeSnapshot env c s).1 ≠ none ∧
        (TakeSnapshot env c s).2.2.2 = [Event.raftSnapshot errS] ++ (Authenticate env c sS).2.2.2 ∧
        snapshotCalls (TakeSnapshot env c s).2.2.2 = 1)) :=
  ⟨IsLeader_retry env c s info errL sL hL, TakeSnapshot_retry env c s errS sS hS⟩

/-- C7 at a concrete input: the installed token has expired, the cluster
answers "permission denied", the login returns a fresh token; `IsLeader` and
`TakeSnapshot` each make their cluster call twice. -/
theorem retry_policy_witness :
    leaderCalls (IsLeader (simEnv (leaderIfToken "t1" "permission denied")
        (snapshotIfToken "t1" "permission denied") (some ⟨some ⟨"t1"⟩⟩, none) ⟨0⟩ none)
        ⟨"expired", "role", "secret", ""⟩ []).2.2.2 = 2 ∧
    snapshotCalls (TakeSnapshot (simEnv (leaderIfToken "t1" "permission denied")
        (snapshotIfToken "t1" "permission denied") (some ⟨some ⟨"t1"⟩⟩, none) ⟨0⟩ none)
        ⟨"expired", "role", "secret", ""⟩ []).2.2.2 = 2 :=
  ⟨(retry_policy (simEnv (leaderIfToken "t1" "permission denied")
        (snapshotIfToken "t1" "permission denied") (some ⟨some ⟨"t1"⟩⟩, none) ⟨0⟩ none)
      ⟨"expired", "role", "secret", ""⟩ [] ⟨false⟩ (some "permission denied") []
      (some "permission denied") [] (by decide) (by decide)).1.2.1.mpr
      ⟨by decide, by decide⟩,
   (retry_policy (simEnv (leaderIfToken "t1" "permission denied")
        (snapshotIfToken "t1" "permission denied") (some ⟨some ⟨"t1"⟩⟩, none) ⟨0⟩ none)
      ⟨"expired", "role", "secret", ""⟩ [] ⟨false⟩ (some "permission denied") []
      (some "permission denied") [] (by decide) (by decide)).2.2.1.mpr
      ⟨by decide, by decide⟩⟩

/-! ## Theorems: retention -/

theorem deleteCalls_cons_delete (a : Nat) (key : String) (err : Option String)
    (evs : List Event) :
    deleteCalls (Event.delete a key err :: evs) = (a, key) :: deleteCalls evs := by
  simp [deleteCalls]

theorem deleteCalls_cons_list (a : Nat) (files : List FileInfo) (err : Option String)
    (evs : List Event) : deleteCalls (Event.list a files err :: evs) = deleteCalls evs := by
  simp [deleteCalls]

/-- The deletion loop calls `Delete` once on the key of every record handed
to it, in order, whatever the calls return, and makes no other call. -/
theorem deleteLoop_events {σ : Type} (provider : Provider σ) (toDelete : List FileInfo) (s : σ) :
    deleteCalls (deleteLoop provider toDelete s).2
      = toDelete.map (fun f => (provider.addr, f.Key)) ∧
    (deleteLoop provider toDelete s).2.length = toDelete.length ∧
    (∀ e ∈ (deleteLoop provider toDelete s).2,
      ∃ key err, e = Event.delete provider.addr key err) := by
  induction toDelete generalizing s with
  | nil => simp [deleteLoop, deleteCalls]
  | cons f rest ih =>
    rcases hd : provider.Delete f.Key s with ⟨err, s1⟩
    obtain ⟨h1, h2, h3⟩ := ih s1
    rcases hr : deleteLoop provider rest s1 with ⟨s2, evs⟩
    rw [hr] at h1 h2 h3
    simp only at h1 h2 h3
    simp only [deleteLoop, hd, hr, deleteCalls_cons_delete, h1, List.map_cons,
      List.length_cons, h2, List.mem_cons, true_and]
    rintro e (rfl | he)
    · exact ⟨f.Key, err, rfl⟩
    · exact h3 e he

/-- What a sorted slice gives: every record kept (before index `k`) is at
least as recent as every record beyond index `k`. -/
theorem SortsBy.kept_newer {sorted files : List FileInfo}
    (h : SortsBy retentionLess sorted files) (k : Nat) :
    ∀ a ∈ sorted.take k, ∀ b ∈ sorted.drop k, b.LastModified.ns ≤ a.LastModified.ns := by
  have hp := h.2
  rw [← List.take_append_drop k sorted, List.pairwise_append] at hp
  intro a ha b hb
  have := hp.2.2 a ha b hb
  simpa [retentionLess, Time.After] using this

/-- The deletion loop is pinned to the provider: the state it leaves is the
state after the `Delete` calls on the keys handed to it, applied one after the
other, and its `i`-th entry is the `Delete` call on the `i`-th key with the
error that call returned in the state the earlier calls left. -/
theorem deleteLoop_pinned {σ : Type} (provider : Provider σ) (toDelete : List FileInfo) (s : σ) :
    (deleteLoop provider toDelete s).1
      = toDelete.foldl (fun t f => (provider.Delete f.Key t).2) s ∧
    (∀ i, (deleteLoop provider toDelete s).2[i]?
      = (toDelete[i]?).map (fun f => Event.delete provider.addr f.Key
          (provider.Delete f.Key
            ((toDelete.take i).foldl (fun t f => (provider.Delete f.Key t).2) s)).1)) := by
  induction toDelete generalizing s with
  | nil => simp [deleteLoop]
  | cons f rest ih =>
    rcases hd : provider.Delete f.Key s with ⟨err, s1⟩
    obtain ⟨h1, h2⟩ := ih s1
    rcases hr : deleteLoop provider rest s1 with ⟨s2, evs⟩
    rw [hr] at h1 h2
    simp only at h1 h2
    simp only [deleteLoop, hd, hr, List.foldl_cons]
    refine ⟨h1, ?_⟩
    intro i
    cases i with
    | zero => simp [hd]
    | succ j => simp [h2 j, hd]

/-- C10, as stated, fails: with `maxRetain = -1` the `List` call succeeds with
`2 > maxRetain` records, and `enforceRetention` panics on the slice expression
`files[maxRetain:]`: it calls no `Delete` and does not return success. -/
theorem enforceRetention_negative_panics :
    enforceRetention
        (simEnv (leaderIfToken "t1" "denied") (snapshotIfToken "t1" "denied") (none, none)
          ⟨0⟩ none)
        (memProvider 1 ⟨0⟩ none) (-1)
        [⟨"snap-1", ⟨100⟩⟩, ⟨"snap-2", ⟨200⟩⟩]
      = (Completion.panicked, none, [⟨"snap-1", ⟨100⟩⟩, ⟨"snap-2", ⟨200⟩⟩],
          [Event.list 1 [⟨"snap-1", ⟨100⟩⟩, ⟨"snap-2", ⟨200⟩⟩] none]) ∧
    decide ((2 : Int) > -1) = true ∧
    deleteCalls (enforceRetention
        (simEnv (leaderIfToken "t1" "denied") (snapshotIfToken "t1" "denied") (none, none)
          ⟨0⟩ none)
        (memProvider 1 ⟨0⟩ none) (-1)
        [⟨"snap-1", ⟨100⟩⟩, ⟨"snap-2", ⟨200⟩⟩]).2.2.2 = [] := by
  decide

/-- C10, amended: let `maxRetain` be non-negative. When `List` succeeds with
more than `maxRetain` records, and `sort.Slice` puts them in descending order
of `LastModified`, `enforceRetention` calls `Delete` exactly once on each of
the `n - maxRetain` records beyond index `maxRetain` of that order, in order,
on this provider and on no other key, whatever the `Delete` calls return (a
failing `Delete` does not stop the others): the calls made are the `List` call
followed, for each such record in turn, by the `Delete` call of the provider on
its key, made in the state the earlier calls left, and the state after
`enforceRetention` is the state after the last of them; none of the records
kept is older than a record deleted; and `enforceRetention` returns success.
When `List` fails, `enforceRetention` returns that error and calls no
`Delete`; and it returns an error only when `List` failed. -/
theorem enforceRetention_deletes {σ : Type} (env : Env σ) (provider : Provider σ)
    (maxRetain : Int) (s : σ) (hk : 0 ≤ maxRetain) :
    (∀ files s1, provider.List s = ((files, none), s1) →
      maxRetain < (files.length : Int) →
      SortsBy retentionLess (env.SortSlice retentionLess files) files →
      (enforceRetention env provider maxRetain s).1 = Completion.done ∧
      (enforceRetention env provider maxRetain s).2.1 = none ∧
      (enforceRetention env provider maxRetain s).2.2.1
        = ((env.SortSlice retentionLess files).drop maxRetain.toNat).foldl
            (fun t f => (provider.Delete f.Key t).2) s1 ∧
      (enforceRetention env provider maxRetain s).2.2.2[0]?
        = some (Event.list provider.addr files none) ∧
      (∀ i, (enforceRetention env provider maxRetain s).2.2.2[i + 1]?
        = (((env.SortSlice retentionLess files).drop maxRetain.toNat)[i]?).map
            (fun f => Event.delete provider.addr f.Key
              (provider.Delete f.Key
                ((((env.SortSlice retentionLess files).drop maxRetain.toNat).take i).foldl
                  (fun t f => (provider.Delete f.Key t).2) s1)).1)) ∧
      deleteCalls (enforceRetention env provider maxRetain s).2.2.2
        = ((env.SortSlice retentionLess files).drop maxRetain.toNat).map
            (fun f => (provider.addr, f.Key)) ∧
      (deleteCalls (enforceRetention env provider maxRetain s).2.2.2).length
        = files.length - maxRetain.toNat ∧
      (enforceRetention env provider maxRetain s).2.2.2.length
        = 1 + (files.length - maxRetain.toNat) ∧
      (∀ a ∈ (env.SortSlice retentionLess files).take maxRetain.toNat,
        ∀ b ∈ (env.SortSlice retentionLess files).drop maxRetain.toNat,
          b.LastModified.ns ≤ a.LastModified.ns)) ∧
    (∀ files e s1, provider.List s = ((files, some e), s1) →
      enforceRetention env provider maxRetain s
        = (Completion.done, some e, s1, [Event.list provider.addr files (some e)]) ∧
      deleteCalls (enforceRetention env provider maxRetain s).2.2.2 = []) ∧
    ((enforceRetention env provider maxRetain s).2.1 ≠ none →
      (provider.List s).1.2 ≠ none) := by
  refine ⟨?_, ?_, ?_⟩
  · intro files s1 hl hn hsort
    have hnle : ¬ ((files.length : Int) ≤ maxRetain) := by omega
    have hnneg : ¬ (maxRetain < 0) := by omega
    obtain ⟨h1, h2, -⟩ :=
      deleteLoop_events provider ((env.SortSlice retentionLess files).drop maxRetain.toNat) s1
    obtain ⟨p1, p2⟩ :=
      deleteLoop_pinned provider ((env.SortSlice retentionLess files).drop maxRetain.toNat) s1
    rcases hr : deleteLoop provider
      ((env.SortSlice retentionLess files).drop maxRetain.toNat) s1 with ⟨s2, evs⟩
    rw [hr] at h1 h2 p1 p2
    simp only at h1 h2 p1 p2
    have hlen : (env.SortSlice retentionLess files).length = files.length := hsort.1.length_eq
    have hrun : enforceRetention env provider maxRetain s
        = (Completion.done, none, s2, Event.list provider.addr files none :: evs) := by
      simp only [enforceRetention, hl, hnle, hnneg, if_false, hr]
    rw [hrun]
    refine ⟨rfl, rfl, p1, ?_, ?_, ?_, ?_, ?_, ?_⟩
    · simp
    · intro i
      simp only [List.getElem?_cons_succ]
      exact p2 i
    · simp only [deleteCalls_cons_list, h1]
    · simp only [deleteCalls_cons_list, h1, List.length_map, List.length_drop, hlen]
    · simp only [List.length_cons, h2, List.length_drop, hlen]
      omega
    · exact hsort.kept_newer maxRetain.toNat
  · intro files e s1 hl
    simp [enforceRetention, hl, deleteCalls]
  · intro herr
    rcases hl : provider.List s with ⟨⟨files, err⟩, s1⟩
    cases err with
    | some e => simp
    | none =>
      exfalso
      apply herr
      simp only [enforceRetention, hl]
      split
      · rfl
      · split
        · rfl
        · rfl

/-- C10 at concrete inputs: three records, `maxRetain = 1`. On a backend whose
every `Delete` fails with "permission denied", `Delete` is still called on the
two oldest records, newest of them first; on a backend whose `Delete` works,
the state after the call holds the newest record only. -/
theorem enforceRetention_deletes_witness :
    deleteCalls (enforceRetention
        (simEnv (leaderIfToken "t1" "denied") (snapshotIfToken "t1" "denied") (none, none)
          ⟨0⟩ none)
        (memProvider 1 ⟨0⟩ (some "permission denied")) 1
        [⟨"snap-2", ⟨200⟩⟩, ⟨"snap-1", ⟨100⟩⟩, ⟨"snap-3", ⟨300⟩⟩]).2.2.2
      = [(1, "snap-2"), (1, "snap-1")] ∧
    (enforceRetention
        (simEnv (leaderIfToken "t1" "denied") (snapshotIfToken "t1" "denied") (none, none)
          ⟨0⟩ none)
        (memProvider 1 ⟨0⟩ none) 1
        [⟨"snap-2", ⟨200⟩⟩, ⟨"snap-1", ⟨100⟩⟩, ⟨"snap-3", ⟨300⟩⟩]).2.2.1
      = [⟨"snap-3", ⟨300⟩⟩] ∧
    (enforceRetention
        (simEnv (leaderIfToken "t1" "denied") (snapshotIfToken "t1" "denied") (none, none)
          ⟨0⟩ none)
        (memProvider 1 ⟨0⟩ (some "permission denied")) 1
        [⟨"snap-2", ⟨200⟩⟩, ⟨"snap-1", ⟨100⟩⟩, ⟨"snap-3", ⟨300⟩⟩]).2.2.2[2]?
      = some (Event.delete 1 "snap-1" (some "permission denied")) :=
  ⟨((enforceRetention_deletes
      (simEnv (leaderIfToken "t1" "denied") (snapshotIfToken "t1" "denied") (none, none)
        ⟨0⟩ none)
      (memProvider 1 ⟨0⟩ (some "permission denied")) 1
      [⟨"snap-2", ⟨200⟩⟩, ⟨"snap-1", ⟨100⟩⟩, ⟨"snap-3", ⟨300⟩⟩] (by decide)).1
    [⟨"snap-2", ⟨200⟩⟩, ⟨"snap-1", ⟨100⟩⟩, ⟨"snap-3", ⟨300⟩⟩]
    [⟨"snap-2", ⟨200⟩⟩, ⟨"snap-1", ⟨100⟩⟩, ⟨"snap-3", ⟨300⟩⟩] rfl (by decide)
    ⟨List.perm_insertionSort _ _, by decide⟩).2.2.2.2.2.1.trans (by decide),
   ((enforceRetention_deletes
      (simEnv (leaderIfToken "t1" "denied") (snapshotIfToken "t1" "denied") (none, none)
        ⟨0⟩ none)
      (memProvider 1 ⟨0⟩ none) 1
      [⟨"snap-2", ⟨200⟩⟩, ⟨"snap-1", ⟨100⟩⟩, ⟨"snap-3", ⟨300⟩⟩] (by decide)).1
    [⟨"snap-2", ⟨200⟩⟩, ⟨"snap-1", ⟨100⟩⟩, ⟨"snap-3", ⟨300⟩⟩]
    [⟨"snap-2", ⟨200⟩⟩, ⟨"snap-1", ⟨100⟩⟩, ⟨"snap-3", ⟨300⟩⟩] rfl (by decide)
    ⟨List.perm_insertionSort _ _, by decide⟩).2.2.1.trans (by decide),
   (((enforceRetention_deletes
      (simEnv (leaderIfToken "t1" "denied") (snapshotIfToken "t1" "denied") (none, none)
        ⟨0⟩ none)
      (memProvider 1 ⟨0⟩ (some "permission denied")) 1
      [⟨"snap-2", ⟨200⟩⟩, ⟨"snap-1", ⟨100⟩⟩, ⟨"snap-3", ⟨300⟩⟩] (by decide)).1
    [⟨"snap-2", ⟨200⟩⟩, ⟨"snap-1", ⟨100⟩⟩, ⟨"snap-3", ⟨300⟩⟩]
    [⟨"snap-2", ⟨200⟩⟩, ⟨"snap-1", ⟨100⟩⟩, ⟨"snap-3", ⟨300⟩⟩] rfl (by decide)
    ⟨List.perm_insertionSort _ _, by decide⟩).2.2.2.2.1 1).trans (by decide)⟩

/-- On a backend whose `Delete` removes the record of a key it holds, the
deletion loop over records with distinct keys, all held, leaves the records
whose key is not among the keys handed to it. -/
theorem deleteLoop_held {σ : Type} (provider : Provider σ) (held : σ → List FileInfo)
    (hdel : ∀ key t, key ∈ (held t).map (fun f => f.Key) →
      held (provider.Delete key t).2 = (held t).filter (fun f => decide (f.Key ≠ key)))
    (toDelete : List FileInfo) (s : σ)
    (hnd : (toDelete.map (fun g => g.Key)).Nodup)
    (hin : ∀ g ∈ toDelete, g.Key ∈ (held s).map (fun f => f.Key)) :
    held (deleteLoop provider toDelete s).1
      = (held s).filter (fun f => decide (f.Key ∉ toDelete.map (fun g => g.Key))) := by
  induction toDelete generalizing s with
  | nil => simp [deleteLoop]
  | cons f rest ih =>
    have hd := hdel f.Key s (hin f (List.mem_cons_self _ _))
    rcases hd1 : provider.Delete f.Key s with ⟨err, s1⟩
    rw [hd1] at hd
    simp only at hd
    rw [List.map_cons, List.nodup_cons] at hnd
    have hin1 : ∀ g ∈ rest, g.Key ∈ (held s1).map (fun f => f.Key) := by
      intro g hg
      have hgs := hin g (List.mem_cons_of_mem _ hg)
      rw [List.mem_map] at hgs ⊢
      obtain ⟨x, hx, hxk⟩ := hgs
      refine ⟨x, ?_, hxk⟩
      rw [hd, List.mem_filter]
      refine ⟨hx, ?_⟩
      simp only [decide_eq_true_eq]
      intro hxf
      apply hnd.1
      rw [← hxf, hxk]
      exact List.mem_map_of_mem _ hg
    have hi := ih s1 hnd.2 hin1
    rcases hr : deleteLoop provider rest s1 with ⟨s2, evs⟩
    rw [hr] at hi
    simp only at hi
    simp only [deleteLoop, hd1, hr, hi, hd, List.filter_filter, List.map_cons, List.mem_cons,
      not_or]
    apply List.filter_congr
    intro x _
    simp only [Bool.and_eq_true, decide_eq_true_eq, Bool.decide_and]
    rw [Bool.and_comm]

/-- C3, as stated, fails: on a provider holding two records whose `Delete`
fails with "permission denied", `enforceRetention(provider, 1)` calls `Delete`
on the older record, returns success, and the provider still holds two
records, not `min(2, 1) = 1`. -/
theorem enforceRetention_delete_fails :
    enforceRetention
        (simEnv (leaderIfToken "t1" "denied") (snapshotIfToken "t1" "denied") (none, none)
          ⟨0⟩ none)
        (memProvider 1 ⟨0⟩ (some "permission denied")) 1
        [⟨"snap-1", ⟨100⟩⟩, ⟨"snap-2", ⟨200⟩⟩]
      = (Completion.done, none, [⟨"snap-1", ⟨100⟩⟩, ⟨"snap-2", ⟨200⟩⟩],
          [Event.list 1 [⟨"snap-1", ⟨100⟩⟩, ⟨"snap-2", ⟨200⟩⟩] none,
           Event.delete 1 "snap-1" (some "permission denied")]) ∧
    ((memProvider 1 ⟨0⟩ (some "permission denied")).List
        [⟨"snap-1", ⟨100⟩⟩, ⟨"snap-2", ⟨200⟩⟩]).1.1.length = 2 := by
  decide

/-- C3, amended: let `k = maxRetain` be non-negative, and let the provider hold
`n` records with distinct keys (`held`), which its `List` returns, its `Delete`
removing the record of a key it holds. Then after
`enforceRetention(provider, k)`, given that `sort.Slice` sorts the listing, the
provider holds exactly `min(n, k)` records: the first `k` of the listing in
descending order of `LastModified`, so that no record removed is more recent
than a record kept; if `n <= k` no `Delete` call is made and the records held
are unchanged; and the call returns success. -/
theorem enforceRetention_keeps_newest {σ : Type} (env : Env σ) (provider : Provider σ)
    (maxRetain : Int) (s : σ) (held : σ → List FileInfo) (files : List FileInfo) (s1 : σ)
    (hk : 0 ≤ maxRetain)
    (hl : provider.List s = ((files, none), s1))
    (hfiles : files.Perm (held s)) (hkeep : held s1 = held s)
    (hdel : ∀ key t, key ∈ (held t).map (fun f => f.Key) →
      held (provider.Delete key t).2 = (held t).filter (fun f => decide (f.Key ≠ key)))
    (hnodup : ((held s).map (fun f => f.Key)).Nodup)
    (hsort : SortsBy retentionLess (env.SortSlice retentionLess files) files) :
    (enforceRetention env provider maxRetain s).1 = Completion.done ∧
    (enforceRetention env provider maxRetain s).2.1 = none ∧
    (held (enforceRetention env provider maxRetain s).2.2.1).length
      = min (held s).length maxRetain.toNat ∧
    (held (enforceRetention env provider maxRetain s).2.2.1).Perm
      ((env.SortSlice retentionLess files).take maxRetain.toNat) ∧
    (∀ a ∈ held (enforceRetention env provider maxRetain s).2.2.1, a ∈ held s) ∧
    (∀ a ∈ held (enforceRetention env provider maxRetain s).2.2.1,
      ∀ b ∈ held s, b ∉ held (enforceRetention env provider maxRetain s).2.2.1 →
        b.LastModified.ns ≤ a.LastModified.ns) ∧
    ((held s).length ≤ maxRetain.toNat →
      deleteCalls (enforceRetention env provider maxRetain s).2.2.2 = [] ∧
      held (enforceRetention env provider maxRetain s).2.2.1 = held s) := by
  have hlen : (env.SortSlice retentionLess files).length = (held s).length :=
    hsort.1.length_eq.trans hfiles.length_eq
  have hsplit := List.take_append_drop maxRetain.toNat (env.SortSlice retentionLess files)
  have hsorted_held : (env.SortSlice retentionLess files).Perm (held s) := hsort.1.trans hfiles
  -- the shape of the result in the two cases
  have hmain : (enforceRetention env provider maxRetain s).1 = Completion.done ∧
      (enforceRetention env provider maxRetain s).2.1 = none ∧
      (held (enforceRetention env provider maxRetain s).2.2.1).Perm
        ((env.SortSlice retentionLess files).take maxRetain.toNat) ∧
      ((held s).length ≤ maxRetain.toNat →
        deleteCalls (enforceRetention env provider maxRetain s).2.2.2 = [] ∧
        held (enforceRetention env provider maxRetain s).2.2.1 = held s) := by
    by_cases hle : (files.length : Int) ≤ maxRetain
    · have hrun : enforceRetention env provider maxRetain s
          = (Completion.done, none, s1, [Event.list provider.addr files none]) := by
        simp [enforceRetention, hl, hle]
      rw [hrun]
      have htake : (env.SortSlice retentionLess files).take maxRetain.toNat
          = env.SortSlice retentionLess files := by
        apply List.take_of_length_le
        have := hfiles.length_eq
        omega
      simp only [hkeep, htake, true_and]
      exact ⟨hsorted_held.symm, fun _ => ⟨by simp [deleteCalls], trivial⟩⟩
    · have hnneg : ¬ (maxRetain < 0) := by omega
      have hnd0 : ((env.SortSlice retentionLess files).map (fun f => f.Key)).Nodup :=
        (hsorted_held.map _).nodup_iff.mpr hnodup
      have hnd1 := hnd0
      rw [← hsplit, List.map_append, List.nodup_append] at hnd1
      have hheld := deleteLoop_held provider held hdel
        ((env.SortSlice retentionLess files).drop maxRetain.toNat) s1 hnd1.2.1
        (by
          intro g hg
          rw [hkeep]
          exact (hsorted_held.map _).mem_iff.mp
            (List.mem_map_of_mem _ (List.mem_of_mem_drop hg)))
      rcases hr : deleteLoop provider
        ((env.SortSlice retentionLess files).drop maxRetain.toNat) s1 with ⟨s2, evs⟩
      rw [hr] at hheld
      simp only at hheld
      have hrun : enforceRetention env provider maxRetain s
          = (Completion.done, none, s2, Event.list provider.addr files none :: evs) := by
        simp [enforceRetention, hl, hle, hnneg, hr]
      rw [hrun]
      simp only [true_and]
      constructor
      · rw [hheld, hkeep]
        have hperm := (hsorted_held.symm.filter (fun f => decide
          (f.Key ∉ ((env.SortSlice retentionLess files).drop maxRetain.toNat).map
            (fun g => g.Key))))
        refine hperm.trans ?_
        have hnd : ((env.SortSlice retentionLess files).map (fun f => f.Key)).Nodup :=
          (hsorted_held.map _).nodup_iff.mpr hnodup
        rw [← hsplit, List.map_append, List.nodup_append] at hnd
        have h1 : ((env.SortSlice retentionLess files).take maxRetain.toNat).filter
            (fun f => decide
              (f.Key ∉ ((env.SortSlice retentionLess files).drop maxRetain.toNat).map
                (fun g => g.Key)))
            = (env.SortSlice retentionLess files).take maxRetain.toNat := by
          rw [List.filter_eq_self]
          intro a ha
          simp only [decide_eq_true_eq]
          intro hin
          exact hnd.2.2 (List.mem_map_of_mem _ ha) hin
        have h2 : ((env.SortSlice retentionLess files).drop maxRetain.toNat).filter
            (fun f => decide
              (f.Key ∉ ((env.SortSlice retentionLess files).drop maxRetain.toNat).map
                (fun g => g.Key))) = [] := by
          rw [List.filter_eq_nil_iff]
          intro a ha
          simp only [decide_eq_true_eq, not_not]
          exact List.mem_map_of_mem _ ha
        have h3 : (env.SortSlice retentionLess files).filter
            (fun f => decide
              (f.Key ∉ ((env.SortSlice retentionLess files).drop maxRetain.toNat).map
                (fun g => g.Key)))
            = ((env.SortSlice retentionLess files).take maxRetain.toNat ++
                (env.SortSlice retentionLess files).drop maxRetain.toNat).filter
              (fun f => decide
                (f.Key ∉ ((env.SortSlice retentionLess files).drop maxRetain.toNat).map
                  (fun g => g.Key))) := by
          rw [hsplit]
        rw [h3, List.filter_append, h1, h2, List.append_nil]
      · intro hn
        exfalso
        have := hfiles.length_eq
        omega
  obtain ⟨hdone, hnone, hperm, hsmall⟩ := hmain
  refine ⟨hdone, hnone, ?_, hperm, ?_, ?_, hsmall⟩
  · rw [hperm.length_eq, List.length_take, hlen, Nat.min_comm]
  · intro a ha
    exact hsorted_held.mem_iff.mp (List.mem_of_mem_take (hperm.mem_iff.mp ha))
  · intro a ha b hb hnb
    have ha2 := hperm.mem_iff.mp ha
    have hb2 : b ∈ (env.SortSlice retentionLess files).drop maxRetain.toNat := by
      have hb3 := hsorted_held.mem_iff.mpr hb
      rw [← hsplit, List.mem_append] at hb3
      rcases hb3 with hb3 | hb3
      · exact absurd (hperm.mem_iff.mpr hb3) hnb
      · exact hb3
    exact hsort.kept_newer maxRetain.toNat a ha2 b hb2

/-- C3 at a concrete input: an in-memory backend holding three records,
`maxRetain = 2`; two records are left, the two most recent. -/
theorem enforceRetention_keeps_newest_witness :
    (enforceRetention
        (simEnv (leaderIfToken "t1" "denied") (snapshotIfToken "t1" "denied") (none, none)
          ⟨0⟩ none)
        (memProvider 1 ⟨0⟩ none) 2
        [⟨"snap-2", ⟨200⟩⟩, ⟨"snap-1", ⟨100⟩⟩, ⟨"snap-3", ⟨300⟩⟩]).2.2.1.Perm
      [⟨"snap-3", ⟨300⟩⟩, ⟨"snap-2", ⟨200⟩⟩] :=
  (enforceRetention_keeps_newest
    (simEnv (leaderIfToken "t1" "denied") (snapshotIfToken "t1" "denied") (none, none)
      ⟨0⟩ none)
    (memProvider 1 ⟨0⟩ none) 2
    [⟨"snap-2", ⟨200⟩⟩, ⟨"snap-1", ⟨100⟩⟩, ⟨"snap-3", ⟨300⟩⟩] (fun held => held)
    [⟨"snap-2", ⟨200⟩⟩, ⟨"snap-1", ⟨100⟩⟩, ⟨"snap-3", ⟨300⟩⟩]
    [⟨"snap-2", ⟨200⟩⟩, ⟨"snap-1", ⟨100⟩⟩, ⟨"snap-3", ⟨300⟩⟩]
    (by decide) rfl (List.Perm.refl _) rfl (fun _ _ _ => rfl) (by decide)
    ⟨List.perm_insertionSort _ _, by decide⟩).2.2.2.1

/-! ## Theorems: the leadership gate and the recency check -/

theorem noWork_calls (evs : List Event) (h : ∀ e ∈ evs, e.isWork = false) :
    saveCalls evs = [] ∧ deleteCalls evs = [] ∧ snapshotCalls evs = 0 ∧
    (∀ err, Event.createTemp err ∉ evs) := by
  induction evs with
  | nil => simp [saveCalls, deleteCalls, snapshotCalls]
  | cons e rest ih =>
    have he := h e (List.mem_cons_self _ _)
    obtain ⟨h1, h2, h3, h4⟩ := ih (fun x hx => h x (List.mem_cons_of_mem _ hx))
    unfold saveCalls deleteCalls snapshotCalls at *
    cases e <;> simp_all [Event.isWork]

theorem Authenticate_noWork {σ : Type} (env : Env σ) (c : Client) (s : σ) :
    ∀ e ∈ (Authenticate env c s).2.2.2, e.isWork = false := by
  unfold Authenticate
  split
  · simp [Event.isWork]
  · split
    · rcases env.Write c.apiToken c.roleID c.secretID s with ⟨⟨secret, err⟩, s1⟩
      rcases err with _ | e
      · rcases secret with _ | sec
        · simp [Event.isWork]
        · rcases hauth : sec.Auth with _ | auth <;> simp [hauth, Event.isWork]
      · simp [Event.isWork]
    · simp

theorem IsLeader_noWork {σ : Type} (env : Env σ) (c : Client) (s : σ) :
    ∀ e ∈ (IsLeader env c s).2.2.2, e.isWork = false := by
  rcases h : env.Leader c.apiToken s with ⟨⟨info, err⟩, s1⟩
  have hA := Authenticate_noWork env c s1
  unfold IsLeader
  rw [h]
  simp only
  split
  · rcases hAuth : Authenticate env c s1 with ⟨loginErr, c2, s2, evA⟩
    rw [hAuth] at hA
    simp only at hA
    cases loginErr with
    | none =>
      rcases env.Leader c2.apiToken s2 with ⟨⟨info2, err2⟩, s3⟩
      intro e he
      simp only [List.mem_append, List.mem_singleton] at he
      rcases he with (rfl | he) | rfl
      · rfl
      · exact hA e he
      · rfl
    | some le =>
      intro e he
      simp only [List.mem_append, List.mem_singleton] at he
      rcases he with rfl | he
      · rfl
      · exact hA e he
  · simp [Event.isWork]

theorem getLastLoop_noWork {σ : Type} (storages : List (Provider σ)) (t0 : Time) (s : σ) :
    ∀ e ∈ (getLastLoop storages t0 s).2.2, e.isWork = false := by
  induction storages generalizing t0 s with
  | nil => simp [getLastLoop]
  | cons p rest ih =>
    rcases hl : p.List s with ⟨⟨files, err⟩, s1⟩
    cases err with
    | some e =>
      have hi := ih t0 s1
      rcases hr : getLastLoop rest t0 s1 with ⟨t, s2, evs⟩
      rw [hr] at hi
      simp only [getLastLoop, hl, hr, List.mem_cons]
      rintro x (rfl | hx)
      · rfl
      · exact hi x hx
    | none =>
      have hi := ih (scanFiles files t0) s1
      rcases hr : getLastLoop rest (scanFiles files t0) s1 with ⟨t, s2, evs⟩
      rw [hr] at hi
      simp only [getLastLoop, hl, hr, List.mem_cons]
      rintro x (rfl | hx)
      · rfl
      · exact hi x hx

/-- C4: in a cycle in which the leadership check returns an error, or reports
that this node is not the leader, `processSnapshot` ends with the leadership
check: it makes no call beyond those of `IsLeader`, so it calls neither `Save`
nor `Delete` on any provider, does not call `TakeSnapshot` (no
`RaftSnapshotWithContext` call) and creates no temporary file. -/
theorem processSnapshot_not_leader {σ : Type} (env : Env σ) (v : Client)
    (storages : List (Provider σ)) (cfg : Config) (s : σ)
    (h : (IsLeader env v s).1.2 ≠ none ∨ (IsLeader env v s).1.1 = false) :
    processSnapshot env v storages cfg s
      = (Completion.done, (IsLeader env v s).2.1, (IsLeader env v s).2.2.1,
          (IsLeader env v s).2.2.2) ∧
    saveCalls (processSnapshot env v storages cfg s).2.2.2 = [] ∧
    deleteCalls (processSnapshot env v storages cfg s).2.2.2 = [] ∧
    snapshotCalls (processSnapshot env v storages cfg s).2.2.2 = 0 ∧
    (∀ err, Event.createTemp err ∉ (processSnapshot env v storages cfg s).2.2.2) := by
  have hw := IsLeader_noWork env v s
  have hrun : processSnapshot env v storages cfg s
      = (Completion.done, (IsLeader env v s).2.1, (IsLeader env v s).2.2.1,
          (IsLeader env v s).2.2.2) := by
    rcases hL : IsLeader env v s with ⟨⟨isLeader, err⟩, v1, s1, evL⟩
    rw [hL] at h
    simp only at h
    unfold processSnapshot
    rw [hL]
    cases err with
    | some e => rfl
    | none =>
      rcases h with h | h
      · exact absurd rfl h
      · subst h
        rfl
  rw [hrun]
  obtain ⟨h1, h2, h3, h4⟩ := noWork_calls _ hw
  exact ⟨rfl, h1, h2, h3, h4⟩

/-- C4 at a concrete input: a standby node (the cluster answers "not the
leader") with one backend; the cycle consists of the one `Leader` call. -/
theorem processSnapshot_not_leader_witness :
    processSnapshot
        (simEnv (fun _ => (⟨false⟩, none)) (snapshotIfToken "static" "denied") (none, none)
          ⟨0⟩ none)
        ⟨"static", "", "", "static"⟩ [memProvider 1 ⟨0⟩ none]
        ⟨3600 * 10 ^ 9, "raft-snapshot-", 5⟩ []
      = (Completion.done, ⟨"static", "", "", "static"⟩, [], [Event.leader none]) :=
  (processSnapshot_not_leader
    (simEnv (fun _ => (⟨false⟩, none)) (snapshotIfToken "static" "denied") (none, none)
      ⟨0⟩ none)
    ⟨"static", "", "", "static"⟩ [memProvider 1 ⟨0⟩ none]
    ⟨3600 * 10 ^ 9, "raft-snapshot-", 5⟩ [] (Or.inr rfl)).1.trans rfl

theorem Duration.div_two_bounds (d : Int) (h : Duration.InRange d) :
    -(2 : Int) ^ 62 ≤ Duration.div d 2 ∧ Duration.div d 2 ≤ (2 : Int) ^ 62 := by
  unfold Duration.InRange minDuration maxDuration at h
  unfold Duration.div
  by_cases hd : 0 ≤ d
  · rw [Int.tdiv_eq_ediv hd (by decide)]
    omega
  · have hneg : d = - (-d) := by omega
    rw [hneg, Int.neg_tdiv, Int.tdiv_eq_ediv (by omega) (by decide)]
    omega

/-- The comparison of the recency check is not affected by the clamping of
`time.Since`: for a frequency that a `Duration` can hold, it compares the exact
age of the newest snapshot with half the frequency. -/
theorem Since_lt_half (now latest : Time) (freq : Int) (hf : Duration.InRange freq) :
    Since now latest < Duration.div freq 2 ↔ now.ns - latest.ns < Duration.div freq 2 := by
  obtain ⟨h1, h2⟩ := Duration.div_two_bounds freq hf
  unfold Since
  rw [Time.Sub_eq_clamp]
  generalize Duration.div freq 2 = half at h1 h2
  omega

theorem recentlyTaken_eq {σ : Type} (env : Env σ) (latestCheck : Time) (cfg : Config) (s : σ)
    (hf : Duration.InRange cfg.SnapshotFreq) :
    (latestCheck.IsZero = true → recentlyTaken env latestCheck cfg s = (false, s)) ∧
    (latestCheck.IsZero = false →
      recentlyTaken env latestCheck cfg s
        = (decide ((env.Now s).1.ns - latestCheck.ns < Duration.div cfg.SnapshotFreq 2),
            (env.Now s).2)) := by
  constructor
  · intro hz
    simp [recentlyTaken, hz]
  · intro hz
    simp only [recentlyTaken, hz, Bool.false_eq_true, if_false]
    congr 1
    exact decide_eq_decide.mpr (Since_lt_half _ _ _ hf)

/-- The acquisition starts with the creation of the temporary file, and once
that has succeeded `TakeSnapshot` is called. -/
theorem acquireAndUpload_starts {σ : Type} (env : Env σ) (c : Client)
    (storages : List (Provider σ)) (cfg : Config) (s : σ) :
    (∃ rest, (acquireAndUpload env c storages cfg s).2.2.2
      = Event.createTemp (env.CreateTemp s).1 :: rest) ∧
    ((env.CreateTemp s).1 = none →
      1 ≤ snapshotCalls (acquireAndUpload env c storages cfg s).2.2.2) := by
  rcases hT : env.CreateTemp s with ⟨tmpErr, s1⟩
  cases tmpErr with
  | some e => simp [acquireAndUpload, hT]
  | none =>
    rcases hN : env.Now s1 with ⟨n1, s2⟩
    rcases hR : env.RaftSnapshot c.apiToken s2 with ⟨err, sR⟩
    have hcalls := (TakeSnapshot_retry env c s2 err sR hR).1.1
    rcases hS : TakeSnapshot env c s2 with ⟨snapErr, c1, s3, evT⟩
    rw [hS] at hcalls
    simp only at hcalls
    have hge : ∀ rest, 1 ≤ snapshotCalls ([Event.createTemp none] ++ evT ++ rest) := by
      intro rest
      rw [snapshotCalls_append, snapshotCalls_append]
      omega
    cases snapErr with
    | some e =>
      simp only [acquireAndUpload, hT, hN, hS, runDeferred]
      exact ⟨⟨_, rfl⟩, fun _ => hge _⟩
    | none =>
      rcases hN2 : env.Now s3 with ⟨n2, s4⟩
      rcases hSt : env.Stat s4 with ⟨statErr, s5⟩
      cases statErr with
      | some e =>
        simp only [acquireAndUpload, hT, hN, hS, hN2, hSt, runDeferred]
        refine ⟨⟨_, rfl⟩, fun _ => ?_⟩
        rw [List.append_assoc]
        exact hge _
      | none =>
        rcases hF : env.FormatNow s5 with ⟨ts, s6⟩
        rcases hU : uploadLoop env storages (cfg.SnapshotPrefix ++ ts ++ ".snap")
          cfg.SnapshotRetain s6 with ⟨r, s7, evU⟩
        simp only [acquireAndUpload, hT, hN, hS, hN2, hSt, hF, hU, runDeferred]
        refine ⟨⟨_, rfl⟩, fun _ => ?_⟩
        rw [List.append_assoc, List.append_assoc]
        exact hge _

/-- The acquisition is pinned to the outside world: it calls `os.CreateTemp`
and stops if that fails; else it calls `TakeSnapshot` and, if that fails,
closes and removes the temporary file; else, after `Stat`, it runs the upload
loop under the file name of the cycle and closes and removes the file. -/
theorem acquireAndUpload_pinned {σ : Type} (env : Env σ) (c : Client)
    (storages : List (Provider σ)) (cfg : Config) (s : σ) (tmpErr : Option String) (sT : σ)
    (hT : env.CreateTemp s = (tmpErr, sT)) :
    (∀ e, tmpErr = some e →
      acquireAndUpload env c storages cfg s
        = (Completion.done, c, sT, [Event.createTemp (some e)])) ∧
    (tmpErr = none →
      1 ≤ snapshotCalls (acquireAndUpload env c storages cfg s).2.2.2) ∧
    (tmpErr = none → ∀ n1 sN snapErr c1 sS evT,
      env.Now sT = (n1, sN) → TakeSnapshot env c sN = (snapErr, c1, sS, evT) →
      (∀ e, snapErr = some e →
        acquireAndUpload env c storages cfg s
          = (Completion.done, c1, env.Remove (env.Close sS),
              ([Event.createTemp none] ++ evT ++
                [Event.closeTemp, Event.removeTemp]))) ∧
      (snapErr = none → ∀ n2 sN2 statErr sSt,
        env.Now sS = (n2, sN2) → env.Stat sN2 = (statErr, sSt) →
        (∀ e, statErr = some e →
          acquireAndUpload env c storages cfg s
            = (Completion.panicked, c1, env.Remove (env.Close sSt),
                ([Event.createTemp none] ++ evT ++ [Event.stat (some e)] ++
                  [Event.closeTemp, Event.removeTemp]))) ∧
        (statErr = none → ∀ ts sF, env.FormatNow sSt = (ts, sF) →
          acquireAndUpload env c storages cfg s
            = ((uploadLoop env storages (cfg.SnapshotPrefix ++ ts ++ ".snap")
                  cfg.SnapshotRetain sF).1,
                c1,
                env.Remove (env.Close (uploadLoop env storages
                  (cfg.SnapshotPrefix ++ ts ++ ".snap") cfg.SnapshotRetain sF).2.1),
                ([Event.createTemp none] ++ evT ++ [Event.stat none] ++
                  (uploadLoop env storages (cfg.SnapshotPrefix ++ ts ++ ".snap")
                    cfg.SnapshotRetain sF).2.2 ++
                  [Event.closeTemp, Event.removeTemp]))))) := by
  have hstart := (acquireAndUpload_starts env c storages cfg s).2
  rw [hT] at hstart
  refine ⟨?_, hstart, ?_⟩
  · intro e he
    subst he
    simp only [acquireAndUpload, hT]
  · intro hnone n1 sN snapErr c1 sS evT hN hS
    subst hnone
    refine ⟨?_, ?_⟩
    · intro e he
      subst he
      simp only [acquireAndUpload, hT, hN, hS, runDeferred]
    · intro hs n2 sN2 statErr sSt hN2 hSt
      subst hs
      refine ⟨?_, ?_⟩
      · intro e he
        subst he
        simp only [acquireAndUpload, hT, hN, hS, hN2, hSt, runDeferred]
      · intro hst ts sF hF
        subst hst
        simp only [acquireAndUpload, hT, hN, hS, hN2, hSt, hF, runDeferred]

/-- C5, as stated, fails: with a frequency of 3 nanoseconds, a newest snapshot
that is 1 nanosecond old is less than `frequency/2` (1.5 nanoseconds) old, yet
the leader does not skip: the check compares with `cfg.SnapshotFreq/2`, which
is 1 nanosecond in `Duration` arithmetic, and the cycle takes a snapshot and
uploads it. -/
theorem processSnapshot_odd_frequency :
    decide (2 * ((Time.mk (63900000000 * 10 ^ 9 + 1)).ns
      - (Time.mk (63900000000 * 10 ^ 9)).ns) < (3 : Int)) = true ∧
    (getLastSnapshotFromAllStorages [memProvider 1 ⟨63900000000 * 10 ^ 9 + 1⟩ none]
      [⟨"raft-snapshot-a.snap", ⟨63900000000 * 10 ^ 9⟩⟩]).1
      = Time.mk (63900000000 * 10 ^ 9) ∧
    Duration.div 3 2 = 1 ∧
    processSnapshot
        (simEnv (leaderIfToken "static" "denied") (snapshotIfToken "static" "denied")
          (none, none) ⟨63900000000 * 10 ^ 9 + 1⟩ none)
        ⟨"static", "", "", "static"⟩ [memProvider 1 ⟨63900000000 * 10 ^ 9 + 1⟩ none]
        ⟨3, "raft-snapshot-", 5⟩
        [⟨"raft-snapshot-a.snap", ⟨63900000000 * 10 ^ 9⟩⟩]
      = (Completion.done, ⟨"static", "", "", "static"⟩,
          [⟨"raft-snapshot-a.snap", ⟨63900000000 * 10 ^ 9⟩⟩,
           ⟨"raft-snapshot-04-11-2026-10-00-00.snap", ⟨63900000000 * 10 ^ 9 + 1⟩⟩],
          [Event.leader none,
           Event.list 1 [⟨"raft-snapshot-a.snap", ⟨63900000000 * 10 ^ 9⟩⟩] none,
           Event.createTemp none,
           Event.raftSnapshot none,
           Event.stat none,
           Event.seek 1 none,
           Event.save 1 "raft-snapshot-04-11-2026-10-00-00.snap" none,
           Event.list 1
             [⟨"raft-snapshot-a.snap", ⟨63900000000 * 10 ^ 9⟩⟩,
              ⟨"raft-snapshot-04-11-2026-10-00-00.snap", ⟨63900000000 * 10 ^ 9 + 1⟩⟩] none,
           Event.closeTemp,
           Event.removeTemp]) := by
  decide

/-- C5, amended: in a cycle in which the node is leader, let `latest` be the
last snapshot instant the recency check finds over all backends and `now` the
clock reading of the check (the frequency being a value a `Duration` can
hold). If `latest` is not "none" and its age `now - latest` is less than
`cfg.SnapshotFreq/2`, the half of the frequency in `Duration` arithmetic
(whole nanoseconds, truncated toward zero), `processSnapshot` skips: after the
listing it makes no further call, so no `TakeSnapshot`, no `Save`, no `Delete`,
no temporary file. Conversely, if `latest` is "none" (the clock is then not
read), or its age is at least `cfg.SnapshotFreq/2`, the cycle goes on to the
acquisition from the state `sStart` the check left: it calls `os.CreateTemp`
and ends there if that fails; else it calls `TakeSnapshot` (so
`RaftSnapshotWithContext` at least once) and, if that fails, only closes and
removes the temporary file; else it goes on to `Stat` and to the upload loop
under the file name of the cycle. -/
theorem processSnapshot_recency {σ : Type} (env : Env σ) (v : Client)
    (storages : List (Provider σ)) (cfg : Config) (s : σ)
    (v1 : Client) (s1 : σ) (evL : List Event) (latest : Time) (s2 : σ) (evC : List Event)
    (now : Time) (s3 : σ)
    (hfreq : Duration.InRange cfg.SnapshotFreq)
    (hL : IsLeader env v s = ((true, none), v1, s1, evL))
    (hG : getLastSnapshotFromAllStorages storages s1 = (latest, s2, evC))
    (hN : env.Now s2 = (now, s3)) :
    (latest.IsZero = false → now.ns - latest.ns < Duration.div cfg.SnapshotFreq 2 →
      processSnapshot env v storages cfg s = (Completion.done, v1, s3, evL ++ evC) ∧
      snapshotCalls (processSnapshot env v storages cfg s).2.2.2 = 0 ∧
      saveCalls (processSnapshot env v storages cfg s).2.2.2 = [] ∧
      deleteCalls (processSnapshot env v storages cfg s).2.2.2 = [] ∧
      (∀ err, Event.createTemp err ∉ (processSnapshot env v storages cfg s).2.2.2)) ∧
    (∀ sStart tmpErr sT,
      ((latest.IsZero = true ∧ sStart = s2) ∨
        (latest.IsZero = false ∧ Duration.div cfg.SnapshotFreq 2 ≤ now.ns - latest.ns ∧
          sStart = s3)) →
      env.CreateTemp sStart = (tmpErr, sT) →
      (∀ e, tmpErr = some e →
        processSnapshot env v storages cfg s
          = (Completion.done, v1, sT, evL ++ evC ++ [Event.createTemp (some e)])) ∧
      (tmpErr = none →
        1 ≤ snapshotCalls (processSnapshot env v storages cfg s).2.2.2) ∧
      (tmpErr = none → ∀ n1 sN snapErr c1 sS evT,
        env.Now sT = (n1, sN) → TakeSnapshot env v1 sN = (snapErr, c1, sS, evT) →
        (∀ e, snapErr = some e →
          processSnapshot env v storages cfg s
            = (Completion.done, c1, env.Remove (env.Close sS),
                evL ++ evC ++ ([Event.createTemp none] ++ evT ++
                  [Event.closeTemp, Event.removeTemp]))) ∧
        (snapErr = none → ∀ n2 sN2 statErr sSt,
          env.Now sS = (n2, sN2) → env.Stat sN2 = (statErr, sSt) →
          (∀ e, statErr = some e →
            processSnapshot env v storages cfg s
              = (Completion.panicked, c1, env.Remove (env.Close sSt),
                  evL ++ evC ++ ([Event.createTemp none] ++ evT ++ [Event.stat (some e)] ++
                    [Event.closeTemp, Event.removeTemp]))) ∧
          (statErr = none → ∀ ts sF, env.FormatNow sSt = (ts, sF) →
            processSnapshot env v storages cfg s
              = ((uploadLoop env storages (cfg.SnapshotPrefix ++ ts ++ ".snap")
                    cfg.SnapshotRetain sF).1,
                  c1,
                  env.Remove (env.Close (uploadLoop env storages
                    (cfg.SnapshotPrefix ++ ts ++ ".snap") cfg.SnapshotRetain sF).2.1),
                  evL ++ evC ++ ([Event.createTemp none] ++ evT ++ [Event.stat none] ++
                    (uploadLoop env storages (cfg.SnapshotPrefix ++ ts ++ ".snap")
                      cfg.SnapshotRetain sF).2.2 ++
                    [Event.closeTemp, Event.removeTemp])))))) := by
  obtain ⟨hz1, hz2⟩ := recentlyTaken_eq env latest cfg s2 hfreq
  rw [hN] at hz2
  simp only at hz2
  have hwL : ∀ e ∈ evL, e.isWork = false := by
    have := IsLeader_noWork env v s
    rw [hL] at this
    exact this
  have hwC : ∀ e ∈ evC, e.isWork = false := by
    have := getLastLoop_noWork storages Time.zero s1
    unfold getLastSnapshotFromAllStorages at hG
    rw [hG] at this
    exact this
  refine ⟨?_, ?_⟩
  · intro hz hlt
    have hrec := hz2 hz
    rw [decide_eq_true hlt] at hrec
    have hrun : processSnapshot env v storages cfg s = (Completion.done, v1, s3, evL ++ evC) := by
      simp only [processSnapshot, hL, hG, hrec, Bool.not_true, Bool.false_eq_true, if_false]
    rw [hrun]
    have hw : ∀ e ∈ evL ++ evC, e.isWork = false := by
      intro e he
      rcases List.mem_append.mp he with he | he
      · exact hwL e he
      · exact hwC e he
    obtain ⟨h1, h2, h3, h4⟩ := noWork_calls _ hw
    exact ⟨rfl, h3, h1, h2, h4⟩
  · intro sStart tmpErr sT hcase hT
    have hrec : recentlyTaken env latest cfg s2 = (false, sStart) := by
      rcases hcase with ⟨hz, rfl⟩ | ⟨hz, hge, rfl⟩
      · exact hz1 hz
      · have := hz2 hz
        rw [decide_eq_false (by omega)] at this
        exact this
    have hrun : processSnapshot env v storages cfg s
        = ((acquireAndUpload env v1 storages cfg sStart).1,
            (acquireAndUpload env v1 storages cfg sStart).2.1,
            (acquireAndUpload env v1 storages cfg sStart).2.2.1,
            evL ++ evC ++ (acquireAndUpload env v1 storages cfg sStart).2.2.2) := by
      simp only [processSnapshot, hL, hG, hrec, Bool.not_true, Bool.false_eq_true, if_false]
    obtain ⟨p1, p2, p3⟩ := acquireAndUpload_pinned env v1 storages cfg sStart tmpErr sT hT
    rw [hrun]
    refine ⟨?_, ?_, ?_⟩
    · intro e he
      rw [p1 e he]
    · intro hnone
      have := p2 hnone
      simp only [snapshotCalls_append]
      omega
    · intro hnone n1 sN snapErr c1 sS evT hN1 hS
      obtain ⟨q1, q2⟩ := p3 hnone n1 sN snapErr c1 sS evT hN1 hS
      refine ⟨?_, ?_⟩
      · intro e he
        rw [q1 e he]
      · intro hs n2 sN2 statErr sSt hN2 hSt
        obtain ⟨r1, r2⟩ := q2 hs n2 sN2 statErr sSt hN2 hSt
        refine ⟨?_, ?_⟩
        · intro e he
          rw [r1 e he]
        · intro hst ts sF hF
          rw [r2 hst ts sF hF]

/-- C5 at concrete inputs, the node being leader and the frequency one hour.
With a snapshot taken ten minutes before the clock reading the cycle consists
of the `Leader` call and the listing. With no snapshot on the backend the cycle
creates the temporary file, takes the snapshot, uploads it and runs the
retention pass. -/
theorem processSnapshot_recency_witness :
    processSnapshot
        (simEnv (leaderIfToken "static" "denied") (snapshotIfToken "static" "denied")
      (none, none) ⟨63900000600 * 10 ^ 9⟩ none)
        ⟨"static", "", "", "static"⟩ [memProvider 1 ⟨63900000600 * 10 ^ 9⟩ none]
        ⟨3600 * 10 ^ 9, "raft-snapshot-", 5⟩
        [⟨"raft-snapshot-a.snap", ⟨63900000000 * 10 ^ 9⟩⟩]
      = (Completion.done, ⟨"static", "", "", "static"⟩,
          [⟨"raft-snapshot-a.snap", ⟨63900000000 * 10 ^ 9⟩⟩],
          [Event.leader none] ++
            [Event.list 1 [⟨"raft-snapshot-a.snap", ⟨63900000000 * 10 ^ 9⟩⟩] none]) ∧
    processSnapshot
        (simEnv (leaderIfToken "static" "denied") (snapshotIfToken "static" "denied")
      (none, none) ⟨63900000600 * 10 ^ 9⟩ none)
        ⟨"static", "", "", "static"⟩ [memProvider 1 ⟨63900000600 * 10 ^ 9⟩ none]
        ⟨3600 * 10 ^ 9, "raft-snapshot-", 5⟩ []
      = (Completion.done, ⟨"static", "", "", "static"⟩,
          [⟨"raft-snapshot-04-11-2026-10-00-00.snap", ⟨63900000600 * 10 ^ 9⟩⟩],
          [Event.leader none,
           Event.list 1 [] none,
           Event.createTemp none,
           Event.raftSnapshot none,
           Event.stat none,
           Event.seek 1 none,
           Event.save 1 "raft-snapshot-04-11-2026-10-00-00.snap" none,
           Event.list 1
             [⟨"raft-snapshot-04-11-2026-10-00-00.snap", ⟨63900000600 * 10 ^ 9⟩⟩] none,
           Event.closeTemp,
           Event.removeTemp]) :=
  ⟨((processSnapshot_recency
      (simEnv (leaderIfToken "static" "denied") (snapshotIfToken "static" "denied")
      (none, none) ⟨63900000600 * 10 ^ 9⟩ none)
      ⟨"static", "", "", "static"⟩ [memProvider 1 ⟨63900000600 * 10 ^ 9⟩ none]
      ⟨3600 * 10 ^ 9, "raft-snapshot-", 5⟩
      [⟨"raft-snapshot-a.snap", ⟨63900000000 * 10 ^ 9⟩⟩]
      ⟨"static", "", "", "static"⟩ [⟨"raft-snapshot-a.snap", ⟨63900000000 * 10 ^ 9⟩⟩]
      [Event.leader none] ⟨63900000000 * 10 ^ 9⟩
      [⟨"raft-snapshot-a.snap", ⟨63900000000 * 10 ^ 9⟩⟩]
      [Event.list 1 [⟨"raft-snapshot-a.snap", ⟨63900000000 * 10 ^ 9⟩⟩] none]
      ⟨63900000600 * 10 ^ 9⟩ [⟨"raft-snapshot-a.snap", ⟨63900000000 * 10 ^ 9⟩⟩]
      (by decide) (by decide) (by decide) rfl).1 (by decide) (by decide)).1,
   ((((((processSnapshot_recency
      (simEnv (leaderIfToken "static" "denied") (snapshotIfToken "static" "denied")
      (none, none) ⟨63900000600 * 10 ^ 9⟩ none)
      ⟨"static", "", "", "static"⟩ [memProvider 1 ⟨63900000600 * 10 ^ 9⟩ none]
      ⟨3600 * 10 ^ 9, "raft-snapshot-", 5⟩ []
      ⟨"static", "", "", "static"⟩ [] [Event.leader none] Time.zero [] [Event.list 1 [] none]
      ⟨63900000600 * 10 ^ 9⟩ []
      (by decide) (by decide) (by decide) rfl).2 [] none [] (Or.inl ⟨rfl, rfl⟩) rfl).2.2 rfl
      ⟨63900000600 * 10 ^ 9⟩ [] none ⟨"static", "", "", "static"⟩ [] [Event.raftSnapshot none] rfl (by decide)).2 rfl
      ⟨63900000600 * 10 ^ 9⟩ [] none [] rfl rfl).2 rfl "04-11-2026-10-00-00" [] rfl).trans (by decide))⟩

/-! ## Theorems: the upload loop -/

theorem seekCalls_append (xs ys : List Event) :
    seekCalls (xs ++ ys) = seekCalls xs ++ seekCalls ys := by
  simp [seekCalls]

theorem saveCalls_append (xs ys : List Event) :
    saveCalls (xs ++ ys) = saveCalls xs ++ saveCalls ys := by
  simp [saveCalls]

theorem listCalls_append (xs ys : List Event) :
    listCalls (xs ++ ys) = listCalls xs ++ listCalls ys := by
  simp [listCalls]

theorem deleteCalls_append (xs ys : List Event) :
    deleteCalls (xs ++ ys) = deleteCalls xs ++ deleteCalls ys := by
  simp [deleteCalls]

theorem deletes_only (a : Nat) (evsD : List Event)
    (h : ∀ e ∈ evsD, ∃ key derr, e = Event.delete a key derr) :
    seekCalls evsD = [] ∧ saveCalls evsD = [] ∧ listCalls evsD = [] ∧
    (∀ x ∈ deleteCalls evsD, x.1 = a) ∧
    (∀ b err, Event.seek b err ∉ evsD) ∧ (∀ b f err, Event.save b f err ∉ evsD) := by
  induction evsD with
  | nil => simp [seekCalls, saveCalls, listCalls, deleteCalls]
  | cons e rest ih =>
    obtain ⟨key, derr, rfl⟩ := h e (List.mem_cons_self _ _)
    obtain ⟨h1, h2, h3, h4, h5, h6⟩ := ih (fun x hx => h x (List.mem_cons_of_mem _ hx))
    unfold seekCalls saveCalls listCalls deleteCalls at *
    simp_all
    exact h4

theorem UploadTrace.nil (filename : String) (retain : Int) :
    UploadTrace [] filename retain [] := by
  simp [UploadTrace, seekCalls, saveCalls, listCalls, deleteCalls]

theorem UploadTrace.append {l1 l2 : List Nat} {filename : String} {retain : Int}
    {e1 e2 : List Event} (h1 : UploadTrace l1 filename retain e1)
    (h2 : UploadTrace l2 filename retain e2) :
    UploadTrace (l1 ++ l2) filename retain (e1 ++ e2) := by
  obtain ⟨a1, b1, c1, d1, f1, g1, k1⟩ := h1
  obtain ⟨a2, b2, c2, d2, f2, g2, k2⟩ := h2
  refine ⟨?_, ?_, ?_, ?_, ?_, ?_, ?_⟩
  · rw [seekCalls_append, a1, a2]
  · intro a
    rw [saveCalls_append, List.mem_append, List.mem_append, b1, b2]
  · rw [saveCalls_append]
    exact c1.append c2
  · intro a f err h
    rcases List.mem_append.mp h with h | h
    · exact d1 a f err h
    · exact d2 a f err h
  · intro a
    rw [listCalls_append, List.mem_append, List.mem_append, f1, f2]
    tauto
  · intro x hx
    rw [deleteCalls_append] at hx
    rw [listCalls_append, List.mem_append]
    rcases List.mem_append.mp hx with hx | hx
    · exact Or.inl (g1 x hx)
    · exact Or.inr (g2 x hx)
  · intro hno
    rw [saveCalls_append, k1 (fun a e h => hno a e (List.mem_append_left _ h)),
      k2 (fun a e h => hno a e (List.mem_append_right _ h))]

theorem IterTrace.upload {a : Nat} {filename : String} {retain : Int} {evs : List Event}
    (h : IterTrace a filename retain evs) : UploadTrace [a] filename retain evs := by
  rcases h with ⟨e, rfl⟩ | ⟨e, rfl⟩ | ⟨hr, rfl⟩ | ⟨hr, files, err, evsD, rfl, hD⟩
  · simp [UploadTrace, seekCalls, saveCalls, listCalls, deleteCalls]
  · simp only [UploadTrace, seekCalls, saveCalls, listCalls, deleteCalls]
    simp
    intro _ f _ _ hf _
    exact hf
  · have hr2 : ¬ (0 < retain) := by omega
    simp only [UploadTrace, seekCalls, saveCalls, listCalls, deleteCalls]
    simp [hr2]
    intro _ f _ _ hf _
    exact hf
  · obtain ⟨h1, h2, h3, h4, h5, h6⟩ := deletes_only a evsD hD
    refine ⟨?_, ?_, ?_, ?_, ?_, ?_, ?_⟩
    · rw [seekCalls_append, h1]
      simp [seekCalls]
    · intro b
      rw [saveCalls_append, h2]
      simp [saveCalls, h5]
    · rw [saveCalls_append, h2]
      simp [saveCalls]
    · intro b f err2 hm
      simp only [List.mem_append, List.mem_cons, List.mem_singleton, h6, or_false] at hm
      simp at hm
      exact hm.2.1
    · intro b
      rw [listCalls_append, h3]
      simp [listCalls, h6, hr]
    · intro x hx
      rw [deleteCalls_append] at hx
      rw [listCalls_append, h3]
      simp only [deleteCalls, List.filterMap_cons, List.filterMap_nil, List.nil_append] at hx
      have := h4 x hx
      simp [listCalls, this]
    · intro _
      rw [saveCalls_append, h2]
      simp [saveCalls]

/-- For a non-negative `maxRetain`, `enforceRetention` returns, and its calls
are one `List` followed by `Delete` calls, all on its provider. -/
theorem enforceRetention_shape {σ : Type} (env : Env σ) (provider : Provider σ)
    (maxRetain : Int) (s : σ) (hk : 0 ≤ maxRetain) :
    (enforceRetention env provider maxRetain s).1 = Completion.done ∧
    ∃ files err evsD,
      (enforceRetention env provider maxRetain s).2.2.2
        = Event.list provider.addr files err :: evsD ∧
      ∀ e ∈ evsD, ∃ key derr, e = Event.delete provider.addr key derr := by
  rcases hl : provider.List s with ⟨⟨files, err⟩, s1⟩
  cases err with
  | some e =>
    simp only [enforceRetention, hl, true_and]
    exact ⟨files, some e, [], rfl, by simp⟩
  | none =>
    by_cases hle : (files.length : Int) ≤ maxRetain
    · simp only [enforceRetention, hl, hle, if_true, true_and]
      exact ⟨files, none, [], rfl, by simp⟩
    · have hnneg : ¬ (maxRetain < 0) := by omega
      obtain ⟨-, -, h3⟩ := deleteLoop_events provider
        ((env.SortSlice retentionLess files).drop maxRetain.toNat) s1
      rcases hr : deleteLoop provider
        ((env.SortSlice retentionLess files).drop maxRetain.toNat) s1 with ⟨s2, evs⟩
      rw [hr] at h3
      simp only [enforceRetention, hl, hle, hnneg, if_false, hr, true_and]
      exact ⟨files, none, evs, rfl, h3⟩

/-- One iteration of the upload loop returns (it does not panic) and its
calls have one of the four shapes of `IterTrace`. -/
theorem uploadOne_trace {σ : Type} (env : Env σ) (p : Provider σ) (filename : String)
    (retain : Int) (s : σ) :
    (uploadOne env p filename retain s).1 = Completion.done ∧
    IterTrace p.addr filename retain (uploadOne env p filename retain s).2.2 := by
  rcases hk : env.Seek s with ⟨seekErr, s1⟩
  cases seekErr with
  | some e =>
    simp only [uploadOne, hk, true_and]
    exact Or.inl ⟨e, rfl⟩
  | none =>
    rcases hs : p.Save filename s1 with ⟨saveErr, s2⟩
    cases saveErr with
    | some e =>
      simp only [uploadOne, hk, hs, true_and]
      exact Or.inr (Or.inl ⟨e, rfl⟩)
    | none =>
      by_cases hr : retain > 0
      · obtain ⟨hdone, files, err, evsD, hev, hD⟩ :=
          enforceRetention_shape env p retain s2 (by omega)
        rcases he : enforceRetention env p retain s2 with ⟨r, rerr, s3, evs⟩
        rw [he] at hdone hev
        simp only at hdone hev
        simp only [uploadOne, hk, hs, hr, if_true, he, hdone, true_and]
        refine Or.inr (Or.inr (Or.inr ⟨hr, files, err, evsD, ?_, hD⟩))
        rw [hev]
        rfl
      · simp only [uploadOne, hk, hs, hr, if_false, true_and]
        exact Or.inr (Or.inr (Or.inl ⟨by omega, rfl⟩))

/-- The upload loop goes on to the next provider from the state the previous
one left, whatever happened in the iteration of the previous one. -/
theorem uploadLoop_cons {σ : Type} (env : Env σ) (p : Provider σ) (rest : List (Provider σ))
    (filename : String) (retain : Int) (s : σ) :
    uploadLoop env (p :: rest) filename retain s
      = ((uploadLoop env rest filename retain (uploadOne env p filename retain s).2.1).1,
         (uploadLoop env rest filename retain (uploadOne env p filename retain s).2.1).2.1,
         (uploadOne env p filename retain s).2.2 ++
           (uploadLoop env rest filename retain (uploadOne env p filename retain s).2.1).2.2) := by
  have hdone := (uploadOne_trace env p filename retain s).1
  rcases h1 : uploadOne env p filename retain s with ⟨r, s1, evs⟩
  rw [h1] at hdone
  simp only at hdone
  subst hdone
  simp only [uploadLoop, h1]

theorem uploadLoop_trace {σ : Type} (env : Env σ) (storages : List (Provider σ))
    (filename : String) (retain : Int) (s : σ) :
    (uploadLoop env storages filename retain s).1 = Completion.done ∧
    UploadTrace (storages.map (fun p => p.addr)) filename retain
      (uploadLoop env storages filename retain s).2.2 := by
  induction storages generalizing s with
  | nil => exact ⟨rfl, UploadTrace.nil filename retain⟩
  | cons p rest ih =>
    rw [uploadLoop_cons]
    obtain ⟨-, h1⟩ := uploadOne_trace env p filename retain s
    obtain ⟨hd, h2⟩ := ih (uploadOne env p filename retain s).2.1
    exact ⟨hd, h1.upload.append h2⟩

/-- C6, as stated, fails: when rewinding the temporary file fails, the loop
goes to the next provider without calling `Save`; here `Save` is attempted on
neither of the two providers. -/
theorem uploadLoop_seek_fails :
    uploadLoop
        (simEnv (leaderIfToken "static" "denied") (snapshotIfToken "static" "denied")
          (none, none) ⟨0⟩ (some "bad file descriptor"))
        [memProvider 1 ⟨0⟩ none, memProvider 2 ⟨0⟩ none]
        "raft-snapshot-04-11-2026-10-00-00.snap" 5 []
      = (Completion.done, [],
          [Event.seek 1 (some "bad file descriptor"),
           Event.seek 2 (some "bad file descriptor")]) ∧
    saveCalls (uploadLoop
        (simEnv (leaderIfToken "static" "denied") (snapshotIfToken "static" "denied")
          (none, none) ⟨0⟩ (some "bad file descriptor"))
        [memProvider 1 ⟨0⟩ none, memProvider 2 ⟨0⟩ none]
        "raft-snapshot-04-11-2026-10-00-00.snap" 5 []).2.2 = [] := by
  decide

/-- C6, amended: in the upload phase of `processSnapshot`, for every list of
providers and every pattern of outcomes, the loop takes the providers in
configured order, one iteration each, and returns. `Save` is attempted, with
the file name of the cycle, on exactly the providers for which the rewind of
the temporary file succeeded, in configured order; so on every provider when no
rewind fails. The retention pass (its `List` call) runs for a provider if and
only if that provider's `Save` succeeded and the retention count is positive,
and `Delete` is called only on a provider whose retention pass runs. A failed
`Save` on provider A therefore never triggers retention on A, and never
prevents the iteration of any other provider B. -/
theorem uploadLoop_spec {σ : Type} (env : Env σ) (storages : List (Provider σ))
    (filename : String) (retain : Int) (s : σ) :
    (uploadLoop env storages filename retain s).1 = Completion.done ∧
    seekCalls (uploadLoop env storages filename retain s).2.2
      = storages.map (fun p => p.addr) ∧
    (∀ a, a ∈ saveCalls (uploadLoop env storages filename retain s).2.2 ↔
      Event.seek a none ∈ (uploadLoop env storages filename retain s).2.2) ∧
    (saveCalls (uploadLoop env storages filename retain s).2.2).Sublist
      (storages.map (fun p => p.addr)) ∧
    (∀ a f err, Event.save a f err ∈ (uploadLoop env storages filename retain s).2.2 →
      f = filename) ∧
    (∀ a, a ∈ listCalls (uploadLoop env storages filename retain s).2.2 ↔
      ((Event.save a filename none ∈ (uploadLoop env storages filename retain s).2.2) ∧
        0 < retain)) ∧
    (∀ x ∈ deleteCalls (uploadLoop env storages filename retain s).2.2,
      x.1 ∈ listCalls (uploadLoop env storages filename retain s).2.2) ∧
    ((∀ a e, Event.seek a (some e) ∉ (uploadLoop env storages filename retain s).2.2) →
      saveCalls (uploadLoop env storages filename retain s).2.2
        = storages.map (fun p => p.addr)) :=
  uploadLoop_trace env storages filename retain s

/-- C6 at a concrete input: the first backend is out of reach and its `Save`
fails, the second accepts the upload; `Save` is attempted on both, in order,
and the retention pass runs on the second only. -/
theorem uploadLoop_spec_witness :
    saveCalls (uploadLoop
        (simEnv (leaderIfToken "static" "denied") (snapshotIfToken "static" "denied")
          (none, none) ⟨0⟩ none)
        [downProvider 1 [] "connection refused", memProvider 2 ⟨500⟩ none]
        "raft-snapshot-04-11-2026-10-00-00.snap" 5 []).2.2 = [1, 2] ∧
    listCalls (uploadLoop
        (simEnv (leaderIfToken "static" "denied") (snapshotIfToken "static" "denied")
          (none, none) ⟨0⟩ none)
        [downProvider 1 [] "connection refused", memProvider 2 ⟨500⟩ none]
        "raft-snapshot-04-11-2026-10-00-00.snap" 5 []).2.2 = [2] :=
  ⟨(uploadLoop_spec
      (simEnv (leaderIfToken "static" "denied") (snapshotIfToken "static" "denied")
        (none, none) ⟨0⟩ none)
      [downProvider 1 [] "connection refused", memProvider 2 ⟨500⟩ none]
      "raft-snapshot-04-11-2026-10-00-00.snap" 5 []).2.2.2.2.2.2.2
      (by
        intro a e h
        have hev : (uploadLoop
            (simEnv (leaderIfToken "static" "denied") (snapshotIfToken "static" "denied")
              (none, none) ⟨0⟩ none)
            [downProvider 1 [] "connection refused", memProvider 2 ⟨500⟩ none]
            "raft-snapshot-04-11-2026-10-00-00.snap" 5 []).2.2
            = [Event.seek 1 none,
               Event.save 1 "raft-snapshot-04-11-2026-10-00-00.snap"
                 (some "connection refused"),
               Event.seek 2 none,
               Event.save 2 "raft-snapshot-04-11-2026-10-00-00.snap" none,
               Event.list 2 [⟨"raft-snapshot-04-11-2026-10-00-00.snap", ⟨500⟩⟩] none] := by
          decide
        rw [hev] at h
        simp at h),
   by decide⟩

end Govalite
